import Mathlib

/-!
# VaeiBoneTools: bone editing on skeletal meshes

A shallow embedding of `VBTBoneTools.cpp`.

* The assets the tool mutates in place (skeletal meshes, skeletons) live in a
  `World`; a pointer is an optional index into it, `none` being the null
  pointer.  An operation returns `none` when it dereferences a null or
  dangling pointer or fails a range check of the engine.
* Calls into the editor that change neither the reference skeleton nor the
  per-LOD bone tables of a mesh (closing editors, saving, reloading, merging
  into the bone tree of the skeleton asset, logs) are recorded as events.
* The engine itself (`FReferenceSkeleton`, `TArray`, `FName`, ...) is not
  part of the repository; its data and operations are given with the
  behaviour the engine documents for them.  Indices are `int32` in the
  source; a reference skeleton has fewer than 2^31 bones, so they are
  integers here.  The per-LOD tables hold 16 bit indices.
-/

namespace VBTBoneTools

/-! ## Engine data the tool works on -/

abbrev FString := String

/-- Modelled from the spec: the engine's type `FName` is not part of this
repository; bone names are text compared by exact match. -/
abbrev FName := String

/-- Name value the engine uses for "no name". -/
def NAME_None : FName := "None"

/-- Test `FName::IsNone`. -/
def FName.IsNone (n : FName) : Bool := n == NAME_None

/-- Construction of an `FName` from text (the `*Text` conversions of the
source); empty text is the engine's "no name". -/
def FName.ofFString (s : FString) : FName := if s = "" then NAME_None else s

/-- Value `INDEX_NONE` of the engine: the "not found" index. -/
def INDEX_NONE : Int := -1

/-- A bone transform.  The tool only passes transforms through, so the model
keeps them as an uninterpreted payload. -/
structure FTransform where
  Payload : List Int
deriving DecidableEq

/-- Number of values of the engine's `FBoneIndexType`, an unsigned 16 bit
integer (declared in the engine, outside this repository). -/
def FBoneIndexTypeSize : Int := 65536

/-- Narrowing of an `int32` to `FBoneIndexType`, as happens when an `int32`
is handed to `AddUnique` of a per-LOD bone table. -/
def toBoneIndexType (i : Int) : Nat := (i % FBoneIndexTypeSize).toNat

structure FMeshBoneInfo where
  Name : FName
  ExportName : FString
  ParentIndex : Int
deriving DecidableEq

/-- The raw part of the engine's `FReferenceSkeleton`: bone infos and bone
poses in two arrays of the same length. -/
structure FReferenceSkeleton where
  RawRefBoneInfo : List FMeshBoneInfo
  RawRefBonePose : List FTransform
deriving DecidableEq

/-- Names of the bones, in index order. -/
def FReferenceSkeleton.boneNames (S : FReferenceSkeleton) : List FName :=
  S.RawRefBoneInfo.map (fun b => b.Name)

def FReferenceSkeleton.GetRawBoneNum (S : FReferenceSkeleton) : Nat :=
  S.RawRefBoneInfo.length

/-- Engine operation `FReferenceSkeleton::FindRawBoneIndex`: the index of the
bone of that name, or `INDEX_NONE`.  The engine keeps bone names unique, so
the first match is the only one. -/
def FReferenceSkeleton.FindRawBoneIndex (S : FReferenceSkeleton) (BoneName : FName) : Int :=
  if S.boneNames.indexOf BoneName < S.boneNames.length then
    (S.boneNames.indexOf BoneName : Int)
  else INDEX_NONE

/-- Engine operation `FReferenceSkeletonModifier::Add`: the bone and its pose
are appended at the end of the raw arrays. -/
def FReferenceSkeleton.Add (S : FReferenceSkeleton) (BoneInfo : FMeshBoneInfo)
    (BonePose : FTransform) : FReferenceSkeleton :=
  { RawRefBoneInfo := S.RawRefBoneInfo ++ [BoneInfo]
    RawRefBonePose := S.RawRefBonePose ++ [BonePose] }

/-- Engine operation `FReferenceSkeleton::RemoveIndividualBone`: the bone at
`BoneIndex` is removed so long as no bone behind it has it as parent; the
parent indices that pointed behind it move down by one. -/
def FReferenceSkeleton.RemoveIndividualBone (S : FReferenceSkeleton) (BoneIndex : Nat) :
    FReferenceSkeleton :=
  if (S.RawRefBoneInfo.drop (BoneIndex + 1)).any (fun b => b.ParentIndex == (BoneIndex : Int))
  then S
  else
    { RawRefBoneInfo := S.RawRefBoneInfo.take BoneIndex ++
        (S.RawRefBoneInfo.drop (BoneIndex + 1)).map
          (fun b => if (BoneIndex : Int) < b.ParentIndex
            then { b with ParentIndex := b.ParentIndex - 1 } else b)
      RawRefBonePose := S.RawRefBonePose.eraseIdx BoneIndex }

/-- Engine operation `FReferenceSkeleton::RemoveBonesByName`: walking the
bones from the last to the first, each bone with one of the names is handed
to `RemoveIndividualBone`. -/
def FReferenceSkeleton.RemoveBonesByName (S : FReferenceSkeleton)
    (BonesToRemove : List FName) : FReferenceSkeleton :=
  (List.range S.GetRawBoneNum).reverse.foldl
    (fun R BoneIndex =>
      match R.RawRefBoneInfo[BoneIndex]? with
      | some Bone =>
        if BonesToRemove.contains Bone.Name then R.RemoveIndividualBone BoneIndex else R
      | none => R)
    S

/-- Engine operation `TArray::AddUnique`: append unless already present. -/
def AddUnique {α : Type} [DecidableEq α] (xs : List α) (x : α) : List α :=
  if x ∈ xs then xs else xs ++ [x]

structure FSkelMeshSection where
  BoneMap : List Nat
deriving DecidableEq

structure FSkeletalMeshLODModel where
  RequiredBones : List Nat
  ActiveBoneIndices : List Nat
  Sections : List FSkelMeshSection
deriving DecidableEq

/-- Per-LOD reduction settings of a mesh: the bones to remove. -/
structure FSkeletalMeshLODInfo where
  BonesToRemove : List FName
deriving DecidableEq

structure USkeletalMeshSocket where
  SocketName : FName
  BoneName : FName
  LocalTransform : FTransform
deriving DecidableEq

def USkeletalMeshSocket.GetSocketLocalTransform (S : USkeletalMeshSocket) : FTransform :=
  S.LocalTransform

/-- A skeleton asset.  Its own bone tree is not part of the modelled state;
the calls that change it are recorded as events. -/
structure USkeleton where
  Name : FString
  Sockets : List USkeletalMeshSocket
deriving DecidableEq

/-- A skeletal mesh asset: `Skeleton` is the pointer `GetSkeleton()`,
`LODModels` is `GetImportedModel()->LODModels`. -/
structure USkeletalMesh where
  Name : FString
  Skeleton : Option Nat
  RefSkeleton : FReferenceSkeleton
  LODModels : List FSkeletalMeshLODModel
  LODInfo : List FSkeletalMeshLODInfo
deriving DecidableEq

/-- A `UObject*` handed to the editor. -/
inductive UObjectPtr where
  | Null
  | Mesh (p : Nat)
  | Skeleton (p : Nat)
deriving DecidableEq

/-- Editor calls that leave reference skeletons and per-LOD tables alone. -/
inductive EditorEvent where
  | MessageLogError (Text : FString)
  | LogError (Text : FString)
  | CloseAllEditorsForAsset (Asset : UObjectPtr)
  | MarkPackageDirty (Asset : UObjectPtr)
  | PromptForCheckoutAndSave (Asset : UObjectPtr)
  | ReloadPackages (Asset : UObjectPtr)
  | MergeAllBonesToBoneTree (Skeleton : Nat) (Mesh : Nat)
  | RemoveBonesFromSkeleton (Skeleton : Nat) (BonesToRemove : List FName) (bRemoveChildBones : Bool)
deriving DecidableEq

/-- The assets of the editor session and the trace of editor calls. -/
structure World where
  Meshes : List USkeletalMesh
  Skeletons : List USkeleton
  Events : List EditorEvent
deriving DecidableEq

def World.emit (w : World) (es : List EditorEvent) : World :=
  { w with Events := w.Events ++ es }

def World.setMesh (w : World) (p : Nat) (m : USkeletalMesh) : World :=
  { w with Meshes := w.Meshes.set p m }

/-- Error report of the validation checks (`FMessageLog("AssetCheck")`). -/
def World.MessageLogError (w : World) (ErrorString : FString) : World :=
  w.emit [EditorEvent.MessageLogError ErrorString]

/-! ## The tool -/

def SaveAndReloadAsset (w : World) (Asset : UObjectPtr) : World :=
  w.emit [EditorEvent.MarkPackageDirty Asset,
          EditorEvent.PromptForCheckoutAndSave Asset,
          EditorEvent.ReloadPackages Asset]

def ForceCloseAsset (w : World) (Asset : UObjectPtr) : World :=
  w.emit [EditorEvent.CloseAllEditorsForAsset Asset]

/-- Pointers to the mesh assets whose skeleton is `Skeleton` (the asset
registry query of the source). -/
def FindCompatibleMeshes (w : World) (Skeleton : Nat) : List Nat :=
  (List.range w.Meshes.length).filter
    (fun p => match w.Meshes[p]? with
      | some m => m.Skeleton == some Skeleton
      | none => false)

/-- Body of `AddBoneToMesh` on the LOD it addresses. -/
def FSkeletalMeshLODModel.AddBone (L : FSkeletalMeshLODModel) (BoneIndex : Int) :
    FSkeletalMeshLODModel :=
  { RequiredBones := AddUnique L.RequiredBones (toBoneIndexType BoneIndex)
    ActiveBoneIndices := AddUnique L.ActiveBoneIndices (toBoneIndexType BoneIndex)
    Sections := L.Sections.map
      (fun s => { BoneMap := AddUnique s.BoneMap (toBoneIndexType BoneIndex) }) }

/-- `AddBoneToMesh`; `none` when `LODIndex` is not an index of `LODModels`
(the engine's range check fails). -/
def AddBoneToMesh (Mesh : USkeletalMesh) (LODIndex : Int) (BoneIndex : Int) :
    Option USkeletalMesh :=
  if 0 ≤ LODIndex then
    match Mesh.LODModels[LODIndex.toNat]? with
    | some L =>
      some { Mesh with LODModels := Mesh.LODModels.set LODIndex.toNat (L.AddBone BoneIndex) }
    | none => none
  else none

/-- `AddBoneToSkeleton`: the mesh after the call and the lines it logs. -/
def AddBoneToSkeleton (SocketName ParentBoneName : FName) (TM : FTransform)
    (Mesh : USkeletalMesh) : USkeletalMesh × List EditorEvent :=
  let NewBoneName : FString := SocketName ++ "_bone"
  let NewBoneIndex := Mesh.RefSkeleton.FindRawBoneIndex (FName.ofFString NewBoneName)
  if NewBoneIndex = INDEX_NONE then
    let ParentIndex := Mesh.RefSkeleton.FindRawBoneIndex ParentBoneName
    if ParentIndex = INDEX_NONE then
      (Mesh, [EditorEvent.LogError
        ("Target mesh does not have the parent bone \x7b " ++ ParentBoneName ++
         " \x7d. The parent must exist on both, this tool is not built to resolve this. Aborting.")])
    else
      let BoneInfo : FMeshBoneInfo :=
        { Name := FName.ofFString NewBoneName, ExportName := NewBoneName,
          ParentIndex := ParentIndex }
      ({ Mesh with RefSkeleton := Mesh.RefSkeleton.Add BoneInfo TM }, [])
  else (Mesh, [])

/-- Engine operation `USkeletalMesh::AddBoneToReductionSetting`. -/
def USkeletalMesh.AddBoneToReductionSetting (Mesh : USkeletalMesh) (LODIndex : Nat)
    (BoneName : FName) : USkeletalMesh :=
  match Mesh.LODInfo[LODIndex]? with
  | some I =>
    { Mesh with LODInfo :=
        Mesh.LODInfo.set LODIndex { BonesToRemove := AddUnique I.BonesToRemove BoneName } }
  | none => Mesh

/-- The loop "add bones to every LOD of the skeletal mesh", shared by
`ConvertSocketsToBones` and `AddBonesToMesh`. -/
def addBoneToEveryLOD (Mesh : USkeletalMesh) (NewBoneIndex : Int) : Option USkeletalMesh :=
  (List.range Mesh.LODModels.length).foldlM
    (fun M i => (AddBoneToMesh M (Int.ofNat i) NewBoneIndex).map
      (fun M1 => M1.AddBoneToReductionSetting i (FName.ofFString "")))
    Mesh

/-- One round of the socket loop of `ConvertSocketsToBones`. -/
def convertSocket (st : USkeletalMesh × List EditorEvent) (S : USkeletalMeshSocket) :
    Option (USkeletalMesh × List EditorEvent) :=
  let r := AddBoneToSkeleton S.SocketName S.BoneName S.GetSocketLocalTransform st.1
  let NewBoneName : FString := S.SocketName ++ "_bone"
  let NewBoneIndex := r.1.RefSkeleton.FindRawBoneIndex (FName.ofFString NewBoneName)
  (addBoneToEveryLOD r.1 NewBoneIndex).map (fun M => (M, st.2 ++ r.2))

def skeletonPtr (p : Option Nat) : UObjectPtr :=
  match p with
  | some s => UObjectPtr.Skeleton s
  | none => UObjectPtr.Null

/-- `ConvertSocketsToBones`; `none` when the call dereferences a null or
dangling pointer. -/
def ConvertSocketsToBones (w : World) (SkeletalMesh TargetSkeletalMesh : Option Nat) :
    Option World :=
  match TargetSkeletalMesh with
  | none => some (w.MessageLogError "TargetSkeletalMesh provided is not valid. Aborting.")
  | some tp =>
  match SkeletalMesh with
  | none => some (w.MessageLogError "SkeletalMesh provided is not valid. Aborting.")
  | some sp =>
  if sp = tp then
    some (w.MessageLogError "SkeletalMesh cannot be the same as TargetSkeletalMesh. Aborting.")
  else
    match w.Meshes[sp]?, w.Meshes[tp]? with
    | some Source, some Target =>
      match Source.Skeleton with
      | none =>
        some (w.MessageLogError ("No skeleton found for " ++ Source.Name ++ ". Aborting."))
      | some sk =>
        let w1 := ForceCloseAsset w (UObjectPtr.Mesh sp)
        let w2 := ForceCloseAsset w1 (UObjectPtr.Skeleton sk)
        let w3 := ForceCloseAsset w2 (UObjectPtr.Mesh tp)
        let w4 := ForceCloseAsset w3 (skeletonPtr Target.Skeleton)
        match w.Skeletons[sk]? with
        | none => none
        | some Skeleton =>
          match Skeleton.Sockets.foldlM convertSocket (Target, []) with
          | none => none
          | some (Target1, Log) =>
            match Target.Skeleton with
            | none => none
            | some tsk =>
              let w5 := (w4.emit Log).setMesh tp Target1
              let w6 := w5.emit [EditorEvent.MergeAllBonesToBoneTree tsk tp]
              let w7 := SaveAndReloadAsset w6 (UObjectPtr.Mesh tp)
              some (SaveAndReloadAsset w7 (UObjectPtr.Skeleton tsk))
    | _, _ => none

/-- `AddBonesToMesh`; `none` when the call dereferences a dangling pointer. -/
def AddBonesToMesh (w : World) (SkeletalMesh : Option Nat) (BoneName ParentBoneName : FString)
    (BoneLocalTM : FTransform) : Option World :=
  match SkeletalMesh with
  | none => some (w.MessageLogError "SkeletalMesh provided is not valid. Aborting.")
  | some p =>
  if BoneName = "" then some (w.MessageLogError "No BoneName provided. Aborting.")
  else
    match w.Meshes[p]? with
    | none => none
    | some Mesh =>
      match Mesh.Skeleton with
      | none => some (w.MessageLogError ("No skeleton found for " ++ Mesh.Name ++ ". Aborting."))
      | some sk =>
        match w.Skeletons[sk]? with
        | none => none
        | some Skeleton =>
          if Mesh.RefSkeleton.FindRawBoneIndex (FName.ofFString ParentBoneName) = INDEX_NONE then
            some (w.MessageLogError
              ("Skeleton \x7b " ++ Skeleton.Name ++ " \x7d has no parent bone \x7b " ++
               ParentBoneName ++ " \x7d. Aborting."))
          else
            let w1 := ForceCloseAsset w (UObjectPtr.Mesh p)
            let w2 := ForceCloseAsset w1 (UObjectPtr.Skeleton sk)
            let r := AddBoneToSkeleton (FName.ofFString BoneName)
              (FName.ofFString ParentBoneName) BoneLocalTM Mesh
            let NewBoneIndex := r.1.RefSkeleton.FindRawBoneIndex (FName.ofFString BoneName)
            match addBoneToEveryLOD r.1 NewBoneIndex with
            | none => none
            | some Mesh1 =>
              let w3 := (w2.emit r.2).setMesh p Mesh1
              let w4 := w3.emit [EditorEvent.MergeAllBonesToBoneTree sk p]
              let w5 := SaveAndReloadAsset w4 (UObjectPtr.Mesh p)
              some (SaveAndReloadAsset w5 (UObjectPtr.Skeleton sk))

/-- One round of the mesh loop of `RemoveBonesFromMesh`. -/
def removeBoneFromMesh (Skeleton : Nat) (BoneName : FName) (w : World) (p : Nat) :
    Option World :=
  match w.Meshes[p]? with
  | none => none
  | some Mesh =>
    let w1 := ForceCloseAsset w (UObjectPtr.Mesh p)
    let w2 := w1.setMesh p
      { Mesh with RefSkeleton := Mesh.RefSkeleton.RemoveBonesByName [BoneName] }
    let w3 := w2.emit [EditorEvent.RemoveBonesFromSkeleton Skeleton [BoneName] true,
                       EditorEvent.MergeAllBonesToBoneTree Skeleton p]
    some (SaveAndReloadAsset w3 (UObjectPtr.Mesh p))

/-- `RemoveBonesFromMesh`; `none` when the call dereferences a dangling
pointer. -/
def RemoveBonesFromMesh (w : World) (SkeletalMesh : Option Nat) (BoneName : FName)
    (bAllMeshes : Bool) : Option World :=
  if BoneName.IsNone then some (w.MessageLogError "No BoneName provided. Aborting.")
  else
    match SkeletalMesh with
    | none => some (w.MessageLogError "SkeletalMesh provided is not valid. Aborting.")
    | some p =>
      match w.Meshes[p]? with
      | none => none
      | some Mesh =>
        match Mesh.Skeleton with
        | none =>
          some (w.MessageLogError ("No skeleton found for " ++ Mesh.Name ++ ". Aborting."))
        | some sk =>
          let w1 := ForceCloseAsset w (UObjectPtr.Skeleton sk)
          let Meshes := if bAllMeshes then FindCompatibleMeshes w sk else [p]
          match Meshes.foldlM (removeBoneFromMesh sk BoneName) w1 with
          | none => none
          | some w2 => some (SaveAndReloadAsset w2 (UObjectPtr.Skeleton sk))

/-! ## Properties the claims speak about -/

/-- Every bone that has a parent has it at a valid index before its own. -/
def ParentsBeforeChildren (S : FReferenceSkeleton) : Prop :=
  ∀ i, (h : i < S.RawRefBoneInfo.length) →
    S.RawRefBoneInfo[i].ParentIndex ≠ INDEX_NONE →
      0 ≤ S.RawRefBoneInfo[i].ParentIndex ∧ S.RawRefBoneInfo[i].ParentIndex < (i : Int)

instance (S : FReferenceSkeleton) : Decidable (ParentsBeforeChildren S) := by
  unfold ParentsBeforeChildren
  infer_instance

/-- Every index stored in the per-LOD tables of the mesh is an index of its
reference skeleton. -/
def TablesValid (M : USkeletalMesh) : Prop :=
  ∀ L ∈ M.LODModels,
    (∀ i ∈ L.RequiredBones, i < M.RefSkeleton.GetRawBoneNum) ∧
    (∀ i ∈ L.ActiveBoneIndices, i < M.RefSkeleton.GetRawBoneNum) ∧
    (∀ s ∈ L.Sections, ∀ i ∈ s.BoneMap, i < M.RefSkeleton.GetRawBoneNum)

instance (M : USkeletalMesh) : Decidable (TablesValid M) := by
  unfold TablesValid
  infer_instance

/-- The index is bound in every table of every LOD of the mesh. -/
def BoundInEveryLOD (M : USkeletalMesh) (i : Nat) : Prop :=
  ∀ L ∈ M.LODModels,
    i ∈ L.RequiredBones ∧ i ∈ L.ActiveBoneIndices ∧ ∀ s ∈ L.Sections, i ∈ s.BoneMap

instance (M : USkeletalMesh) (i : Nat) : Decidable (BoundInEveryLOD M i) := by
  unfold BoundInEveryLOD
  infer_instance

/-- The bones the conversion is to append, in the words of its description:
the sockets are taken in stored order, and a socket gives one bone, named
after it, parented to the socket's bone and carrying the socket's local
transform, exactly when its parent bone is among the names present at that
moment and its derived name is not.  `present` holds the names of the target
followed by the names appended so far. -/
def socketBones (present : List FName) :
    List USkeletalMeshSocket → List (FMeshBoneInfo × FTransform)
  | [] => []
  | S :: rest =>
    if S.BoneName ∈ present ∧ S.SocketName ++ "_bone" ∉ present then
      ({ Name := S.SocketName ++ "_bone", ExportName := S.SocketName ++ "_bone",
         ParentIndex := (present.indexOf S.BoneName : Int) }, S.LocalTransform) ::
        socketBones (present ++ [S.SocketName ++ "_bone"]) rest
    else socketBones present rest

/-- The world differs from the old one by one reported error only: no asset
changed, nothing was closed, saved or reloaded. -/
def OnlyReported (w w1 : World) : Prop :=
  w1.Meshes = w.Meshes ∧ w1.Skeletons = w.Skeletons ∧
    ∃ Text, w1.Events = w.Events ++ [EditorEvent.MessageLogError Text]

/-- The bones the entries of a per-LOD table refer to (`none`: no bone at
that index). -/
def referredBones (S : FReferenceSkeleton) (Table : List Nat) : List (Option FName) :=
  Table.map (fun i => S.boneNames[i]?)

/-- A table is repaired for the removal of `BoneName`: the entries that
referred to the removed bone are gone and the others refer, in the same
order, to the bones they referred to before. -/
def TableRepaired (Before After : FReferenceSkeleton) (BoneName : FName)
    (TableBefore TableAfter : List Nat) : Prop :=
  referredBones After TableAfter =
    (referredBones Before TableBefore).filter (fun n => n ≠ some BoneName)

instance (Before After : FReferenceSkeleton) (BoneName : FName) (TableBefore TableAfter : List Nat) :
    Decidable (TableRepaired Before After BoneName TableBefore TableAfter) := by
  unfold TableRepaired
  infer_instance

/-- Every per-LOD table of the mesh is repaired for the removal. -/
def BindingsRepaired (Before After : USkeletalMesh) (BoneName : FName) : Prop :=
  ∀ L ∈ Before.LODModels.zip After.LODModels,
    TableRepaired Before.RefSkeleton After.RefSkeleton BoneName
      L.1.RequiredBones L.2.RequiredBones ∧
    TableRepaired Before.RefSkeleton After.RefSkeleton BoneName
      L.1.ActiveBoneIndices L.2.ActiveBoneIndices ∧
    ∀ s ∈ L.1.Sections.zip L.2.Sections,
      TableRepaired Before.RefSkeleton After.RefSkeleton BoneName s.1.BoneMap s.2.BoneMap

instance (Before After : USkeletalMesh) (BoneName : FName) :
    Decidable (BindingsRepaired Before After BoneName) := by
  unfold BindingsRepaired
  infer_instance

/-! ## Concrete assets used to run the tool -/

def exampleTM : FTransform := { Payload := [7] }

def rootPose : FTransform := { Payload := [] }

/-- A reference skeleton with the single bone `root`. -/
def rootOnly : FReferenceSkeleton :=
  { RawRefBoneInfo := [{ Name := "root", ExportName := "root", ParentIndex := INDEX_NONE }]
    RawRefBonePose := [rootPose] }

/-- One LOD whose tables all hold the index of `root`. -/
def rootLOD : FSkeletalMeshLODModel :=
  { RequiredBones := [0], ActiveBoneIndices := [0], Sections := [{ BoneMap := [0] }] }

/-- Source mesh of the conversion; its skeleton is skeleton 1. -/
def sourceMesh : USkeletalMesh :=
  { Name := "Source", Skeleton := some 1, RefSkeleton := rootOnly, LODModels := [],
    LODInfo := [] }

/-- Target mesh: the bone `root`, one LOD; its skeleton is skeleton 0. -/
def targetMesh : USkeletalMesh :=
  { Name := "Target", Skeleton := some 0, RefSkeleton := rootOnly, LODModels := [rootLOD],
    LODInfo := [{ BonesToRemove := [] }] }

/-- Skeleton of the source: the socket `weapon` hangs on `hand`, a bone the
target does not have; the socket `cup` hangs on `root`. -/
def sourceSkeleton : USkeleton :=
  { Name := "SourceSkeleton"
    Sockets := [{ SocketName := "weapon", BoneName := "hand", LocalTransform := exampleTM },
                { SocketName := "cup", BoneName := "root", LocalTransform := exampleTM }] }

def targetSkeleton : USkeleton := { Name := "TargetSkeleton", Sockets := [] }

/-- Mesh 0 is `sourceMesh`, mesh 1 is `targetMesh`; skeleton 0 is
`targetSkeleton`, skeleton 1 is `sourceSkeleton`. -/
def exampleWorld : World :=
  { Meshes := [sourceMesh, targetMesh], Skeletons := [targetSkeleton, sourceSkeleton],
    Events := [] }

/-- A mesh without skeleton, for the validation checks. -/
def looseMesh : USkeletalMesh :=
  { Name := "Loose", Skeleton := none, RefSkeleton := rootOnly, LODModels := [rootLOD],
    LODInfo := [] }

def looseWorld : World :=
  { Meshes := [looseMesh, targetMesh], Skeletons := [targetSkeleton], Events := [] }

/-- The bones `root`, `a` and `b`, the last two childless children of `root`,
all bound in the one LOD. -/
def bodyMesh : USkeletalMesh :=
  { Name := "Body", Skeleton := some 0
    RefSkeleton :=
      { RawRefBoneInfo := [{ Name := "root", ExportName := "root", ParentIndex := INDEX_NONE },
                           { Name := "a", ExportName := "a", ParentIndex := 0 },
                           { Name := "b", ExportName := "b", ParentIndex := 0 }]
        RawRefBonePose := [rootPose, rootPose, rootPose] }
    LODModels := [{ RequiredBones := [0, 1, 2], ActiveBoneIndices := [0, 1, 2],
                    Sections := [{ BoneMap := [0, 1, 2] }] }]
    LODInfo := [] }

def bodyWorld : World :=
  { Meshes := [bodyMesh], Skeletons := [targetSkeleton], Events := [] }

/-- The mesh `bodyMesh` once `RemoveBonesFromMesh` has removed `a`. -/
def bodyMeshAfter : USkeletalMesh :=
  { Name := "Body", Skeleton := some 0
    RefSkeleton :=
      { RawRefBoneInfo := [{ Name := "root", ExportName := "root", ParentIndex := INDEX_NONE },
                           { Name := "b", ExportName := "b", ParentIndex := 0 }]
        RawRefBonePose := [rootPose, rootPose] }
    LODModels := [{ RequiredBones := [0, 1, 2], ActiveBoneIndices := [0, 1, 2],
                    Sections := [{ BoneMap := [0, 1, 2] }] }]
    LODInfo := [] }

/-- The mesh `targetMesh` once `AddBonesToMesh` has run with the bone name
`spine` and the parent `root`. -/
def targetMeshSpine : USkeletalMesh :=
  { Name := "Target", Skeleton := some 0
    RefSkeleton :=
      { RawRefBoneInfo := [{ Name := "root", ExportName := "root", ParentIndex := INDEX_NONE },
                           { Name := "spine_bone", ExportName := "spine_bone",
                             ParentIndex := 0 }]
        RawRefBonePose := [rootPose, exampleTM] }
    LODModels := [{ RequiredBones := [0, 65535], ActiveBoneIndices := [0, 65535],
                    Sections := [{ BoneMap := [0, 65535] }] }]
    LODInfo := [{ BonesToRemove := ["None"] }] }

/-- The mesh `targetMesh` once `ConvertSocketsToBones` has run on
`exampleWorld`. -/
def targetMeshConverted : USkeletalMesh :=
  { Name := "Target", Skeleton := some 0
    RefSkeleton :=
      { RawRefBoneInfo := [{ Name := "root", ExportName := "root", ParentIndex := INDEX_NONE },
                           { Name := "cup_bone", ExportName := "cup_bone", ParentIndex := 0 }]
        RawRefBonePose := [rootPose, exampleTM] }
    LODModels := [{ RequiredBones := [0, 65535, 1], ActiveBoneIndices := [0, 65535, 1],
                    Sections := [{ BoneMap := [0, 65535, 1] }] }]
    LODInfo := [{ BonesToRemove := ["None"] }] }

/-- The indices a per-LOD table holds, read as the `int32` values the tool
works with. -/
def storedIndices (Table : List Nat) : List Int :=
  Table.map Int.ofNat

/-- The mesh `targetMesh` once `AddBoneToMesh` has run on LOD 0 with the bone
index `INDEX_NONE`. -/
def targetMeshNoIndex : USkeletalMesh :=
  { Name := "Target", Skeleton := some 0, RefSkeleton := rootOnly
    LODModels := [{ RequiredBones := [0, 65535], ActiveBoneIndices := [0, 65535],
                    Sections := [{ BoneMap := [0, 65535] }] }]
    LODInfo := [{ BonesToRemove := [] }] }

/-- The mesh an operation leaves at a pointer, if it returns. -/
def meshAfter (r : Option World) (p : Nat) : Option USkeletalMesh :=
  r.bind (fun w => w.Meshes[p]?)

/-! ## Names -/

theorem length_bone_suffix : ("_bone" : String).length = 5 := by decide

theorem derived_ne_empty (s : FString) : s ++ "_bone" ≠ "" := by
  intro h
  have h1 := congrArg String.length h
  simp [length_bone_suffix] at h1

theorem derived_ne_self (s : FString) : s ++ "_bone" ≠ s := by
  intro h
  have h1 := congrArg String.length h
  simp [length_bone_suffix] at h1

theorem ofFString_derived (s : FString) : FName.ofFString (s ++ "_bone") = s ++ "_bone" := by
  simp [FName.ofFString, derived_ne_empty]

theorem ofFString_of_ne_empty (s : FString) (h : s ≠ "") : FName.ofFString s = s := by
  simp [FName.ofFString, h]

/-! ## Lookup and insertion in the reference skeleton -/

theorem FindRawBoneIndex_eq_none_iff (S : FReferenceSkeleton) (n : FName) :
    S.FindRawBoneIndex n = INDEX_NONE ↔ n ∉ S.boneNames := by
  unfold FReferenceSkeleton.FindRawBoneIndex INDEX_NONE
  rw [← List.indexOf_lt_length]
  split
  · constructor
    · intro h; omega
    · intro h; contradiction
  · simp [*]

theorem FindRawBoneIndex_of_mem (S : FReferenceSkeleton) (n : FName) (h : n ∈ S.boneNames) :
    S.FindRawBoneIndex n = (S.boneNames.indexOf n : Int) := by
  unfold FReferenceSkeleton.FindRawBoneIndex
  rw [if_pos (List.indexOf_lt_length.mpr h)]

theorem FindRawBoneIndex_range (S : FReferenceSkeleton) (n : FName)
    (h : S.FindRawBoneIndex n ≠ INDEX_NONE) :
    0 ≤ S.FindRawBoneIndex n ∧ S.FindRawBoneIndex n < (S.GetRawBoneNum : Int) := by
  have hm : n ∈ S.boneNames := by
    by_contra hn
    exact h ((FindRawBoneIndex_eq_none_iff S n).mpr hn)
  rw [FindRawBoneIndex_of_mem S n hm]
  have h1 := List.indexOf_lt_length.mpr hm
  have h2 : S.boneNames.length = S.GetRawBoneNum := by
    simp [FReferenceSkeleton.boneNames, FReferenceSkeleton.GetRawBoneNum]
  omega

theorem boneNames_Add (S : FReferenceSkeleton) (b : FMeshBoneInfo) (t : FTransform) :
    (S.Add b t).boneNames = S.boneNames ++ [b.Name] := by
  simp [FReferenceSkeleton.Add, FReferenceSkeleton.boneNames]

theorem FindRawBoneIndex_Add_new (S : FReferenceSkeleton) (b : FMeshBoneInfo) (t : FTransform)
    (h : b.Name ∉ S.boneNames) :
    (S.Add b t).FindRawBoneIndex b.Name = (S.GetRawBoneNum : Int) := by
  have hm : b.Name ∈ (S.Add b t).boneNames := by simp [boneNames_Add]
  rw [FindRawBoneIndex_of_mem _ _ hm, boneNames_Add, List.indexOf_append_of_not_mem h]
  simp [FReferenceSkeleton.GetRawBoneNum, FReferenceSkeleton.boneNames]

theorem FindRawBoneIndex_Add_old (S : FReferenceSkeleton) (b : FMeshBoneInfo) (t : FTransform)
    (n : FName) (h : n ∈ S.boneNames) :
    (S.Add b t).FindRawBoneIndex n = S.FindRawBoneIndex n := by
  have hm : n ∈ (S.Add b t).boneNames := by simp [boneNames_Add, h]
  rw [FindRawBoneIndex_of_mem _ _ hm, FindRawBoneIndex_of_mem _ _ h, boneNames_Add,
    List.indexOf_append_of_mem h]

theorem FindRawBoneIndex_Add_other (S : FReferenceSkeleton) (b : FMeshBoneInfo) (t : FTransform)
    (n : FName) (h : n ∉ S.boneNames) (hne : n ≠ b.Name) :
    (S.Add b t).FindRawBoneIndex n = INDEX_NONE := by
  rw [FindRawBoneIndex_eq_none_iff, boneNames_Add]
  simp [h, hne]



/-- What `AddBoneToSkeleton` does to the reference skeleton. -/
theorem AddBoneToSkeleton_RefSkeleton (SocketName ParentBoneName : FName) (TM : FTransform)
    (Mesh : USkeletalMesh) :
    (AddBoneToSkeleton SocketName ParentBoneName TM Mesh).1.RefSkeleton =
      if SocketName ++ "_bone" ∉ Mesh.RefSkeleton.boneNames ∧
          ParentBoneName ∈ Mesh.RefSkeleton.boneNames then
        Mesh.RefSkeleton.Add
          { Name := SocketName ++ "_bone", ExportName := SocketName ++ "_bone",
            ParentIndex := (Mesh.RefSkeleton.boneNames.indexOf ParentBoneName : Int) } TM
      else Mesh.RefSkeleton := by
  unfold AddBoneToSkeleton
  simp only [ofFString_derived]
  by_cases h1 : SocketName ++ "_bone" ∈ Mesh.RefSkeleton.boneNames
  · have : Mesh.RefSkeleton.FindRawBoneIndex (SocketName ++ "_bone") ≠ INDEX_NONE := by
      rw [Ne, FindRawBoneIndex_eq_none_iff]; simpa using h1
    simp [this, h1]
  · have e1 := (FindRawBoneIndex_eq_none_iff _ _).mpr h1
    by_cases h2 : ParentBoneName ∈ Mesh.RefSkeleton.boneNames
    · have : Mesh.RefSkeleton.FindRawBoneIndex ParentBoneName ≠ INDEX_NONE := by
        rw [Ne, FindRawBoneIndex_eq_none_iff]; simpa using h2
      have e3 := FindRawBoneIndex_of_mem _ _ h2
      rw [e3] at this
      simp [e1, e3, this, h1, h2]
    · have e2 := (FindRawBoneIndex_eq_none_iff _ _).mpr h2
      simp [e1, e2, h1, h2]

/-- `AddBoneToSkeleton` touches nothing but the reference skeleton. -/
theorem AddBoneToSkeleton_rest (SocketName ParentBoneName : FName) (TM : FTransform)
    (Mesh : USkeletalMesh) :
    (AddBoneToSkeleton SocketName ParentBoneName TM Mesh).1 =
      { Mesh with RefSkeleton :=
          (AddBoneToSkeleton SocketName ParentBoneName TM Mesh).1.RefSkeleton } := by
  unfold AddBoneToSkeleton
  simp only
  split
  · split <;> rfl
  · rfl

/-- `AddBoneToSkeleton` leaves the mesh as it is when the derived name is
taken or the parent is missing. -/
theorem AddBoneToSkeleton_noop (SocketName ParentBoneName : FName) (TM : FTransform)
    (Mesh : USkeletalMesh)
    (h : SocketName ++ "_bone" ∈ Mesh.RefSkeleton.boneNames ∨
      ParentBoneName ∉ Mesh.RefSkeleton.boneNames) :
    (AddBoneToSkeleton SocketName ParentBoneName TM Mesh).1 = Mesh := by
  rw [AddBoneToSkeleton_rest, AddBoneToSkeleton_RefSkeleton]
  have hc : ¬ (SocketName ++ "_bone" ∉ Mesh.RefSkeleton.boneNames ∧
      ParentBoneName ∈ Mesh.RefSkeleton.boneNames) := by
    rintro ⟨h1, h2⟩
    rcases h with h | h
    · exact h1 h
    · exact h h2
  rw [if_neg hc]

/-- C4: when the reference skeleton has no bone named `ParentBoneName` (and
none named `SocketName + "_bone"`), `AddBoneToSkeleton` leaves the reference
skeleton, and the mesh as a whole, exactly as it was. -/
theorem AddBoneToSkeleton_missing_parent_unchanged (SocketName ParentBoneName : FName)
    (TM : FTransform) (Mesh : USkeletalMesh)
    (hParent : Mesh.RefSkeleton.FindRawBoneIndex ParentBoneName = INDEX_NONE)
    (_hNew : Mesh.RefSkeleton.FindRawBoneIndex (FName.ofFString (SocketName ++ "_bone")) =
      INDEX_NONE) :
    (AddBoneToSkeleton SocketName ParentBoneName TM Mesh).1.RefSkeleton = Mesh.RefSkeleton ∧
    (AddBoneToSkeleton SocketName ParentBoneName TM Mesh).1 = Mesh := by
  have h := AddBoneToSkeleton_noop SocketName ParentBoneName TM Mesh
    (Or.inr ((FindRawBoneIndex_eq_none_iff _ _).mp hParent))
  exact ⟨by rw [h], h⟩

/-- C5: `AddBoneToSkeleton` is idempotent: a second call with the same
arguments returns the mesh the first call returned, so the reference
skeleton, its bone count and the index found for `SocketName + "_bone"` are
the same after both calls. -/
theorem AddBoneToSkeleton_idempotent (SocketName ParentBoneName : FName) (TM : FTransform)
    (Mesh : USkeletalMesh) :
    (AddBoneToSkeleton SocketName ParentBoneName TM
        (AddBoneToSkeleton SocketName ParentBoneName TM Mesh).1).1 =
      (AddBoneToSkeleton SocketName ParentBoneName TM Mesh).1 ∧
    (AddBoneToSkeleton SocketName ParentBoneName TM
        (AddBoneToSkeleton SocketName ParentBoneName TM Mesh).1).1.RefSkeleton.GetRawBoneNum =
      (AddBoneToSkeleton SocketName ParentBoneName TM Mesh).1.RefSkeleton.GetRawBoneNum ∧
    (AddBoneToSkeleton SocketName ParentBoneName TM
        (AddBoneToSkeleton SocketName ParentBoneName TM Mesh).1).1.RefSkeleton.FindRawBoneIndex
        (FName.ofFString (SocketName ++ "_bone")) =
      (AddBoneToSkeleton SocketName ParentBoneName TM Mesh).1.RefSkeleton.FindRawBoneIndex
        (FName.ofFString (SocketName ++ "_bone")) := by
  have key : (AddBoneToSkeleton SocketName ParentBoneName TM
        (AddBoneToSkeleton SocketName ParentBoneName TM Mesh).1).1 =
      (AddBoneToSkeleton SocketName ParentBoneName TM Mesh).1 := by
    apply AddBoneToSkeleton_noop
    by_cases hc : SocketName ++ "_bone" ∉ Mesh.RefSkeleton.boneNames ∧
        ParentBoneName ∈ Mesh.RefSkeleton.boneNames
    · left
      rw [AddBoneToSkeleton_RefSkeleton, if_pos hc, boneNames_Add]
      simp
    · have hn : (AddBoneToSkeleton SocketName ParentBoneName TM Mesh).1 = Mesh := by
        apply AddBoneToSkeleton_noop
        by_cases h1 : SocketName ++ "_bone" ∈ Mesh.RefSkeleton.boneNames
        · exact Or.inl h1
        · exact Or.inr (fun h2 => hc ⟨h1, h2⟩)
      rw [hn]
      by_cases h1 : SocketName ++ "_bone" ∈ Mesh.RefSkeleton.boneNames
      · exact Or.inl h1
      · exact Or.inr (fun h2 => hc ⟨h1, h2⟩)
  rw [key]
  exact ⟨rfl, rfl, rfl⟩

/-- C10: `AddBoneToSkeleton` keeps bone names unique and parents before
their children; when it inserts (the derived name is free and the parent is
found) the bone is appended at index N, the old bone count, behind the
unchanged old bones, with the index of `ParentBoneName`, which is below N, as
its parent; otherwise the reference skeleton stays as it is. -/
theorem AddBoneToSkeleton_preserves_invariants (SocketName ParentBoneName : FName)
    (TM : FTransform) (Mesh : USkeletalMesh)
    (hUnique : Mesh.RefSkeleton.boneNames.Nodup)
    (hParents : ParentsBeforeChildren Mesh.RefSkeleton) :
    (AddBoneToSkeleton SocketName ParentBoneName TM Mesh).1.RefSkeleton.boneNames.Nodup ∧
    ParentsBeforeChildren (AddBoneToSkeleton SocketName ParentBoneName TM Mesh).1.RefSkeleton ∧
    ((Mesh.RefSkeleton.FindRawBoneIndex (FName.ofFString (SocketName ++ "_bone")) = INDEX_NONE ∧
        Mesh.RefSkeleton.FindRawBoneIndex ParentBoneName ≠ INDEX_NONE) →
      (AddBoneToSkeleton SocketName ParentBoneName TM Mesh).1.RefSkeleton.RawRefBoneInfo =
        Mesh.RefSkeleton.RawRefBoneInfo ++
          [{ Name := SocketName ++ "_bone", ExportName := SocketName ++ "_bone",
             ParentIndex := Mesh.RefSkeleton.FindRawBoneIndex ParentBoneName }] ∧
      (AddBoneToSkeleton SocketName ParentBoneName TM Mesh).1.RefSkeleton.RawRefBonePose =
        Mesh.RefSkeleton.RawRefBonePose ++ [TM] ∧
      (AddBoneToSkeleton SocketName ParentBoneName TM Mesh).1.RefSkeleton.FindRawBoneIndex
        (FName.ofFString (SocketName ++ "_bone")) = (Mesh.RefSkeleton.GetRawBoneNum : Int) ∧
      0 ≤ Mesh.RefSkeleton.FindRawBoneIndex ParentBoneName ∧
      Mesh.RefSkeleton.FindRawBoneIndex ParentBoneName < (Mesh.RefSkeleton.GetRawBoneNum : Int)) ∧
    (¬ (Mesh.RefSkeleton.FindRawBoneIndex (FName.ofFString (SocketName ++ "_bone")) = INDEX_NONE ∧
        Mesh.RefSkeleton.FindRawBoneIndex ParentBoneName ≠ INDEX_NONE) →
      (AddBoneToSkeleton SocketName ParentBoneName TM Mesh).1.RefSkeleton = Mesh.RefSkeleton) := by
  rw [ofFString_derived, FindRawBoneIndex_eq_none_iff, Ne, FindRawBoneIndex_eq_none_iff,
    not_not, AddBoneToSkeleton_RefSkeleton]
  by_cases hc : SocketName ++ "_bone" ∉ Mesh.RefSkeleton.boneNames ∧
      ParentBoneName ∈ Mesh.RefSkeleton.boneNames
  · rw [if_pos hc]
    obtain ⟨h1, h2⟩ := hc
    have hlt := List.indexOf_lt_length.mpr h2
    have hlen : Mesh.RefSkeleton.boneNames.length = Mesh.RefSkeleton.RawRefBoneInfo.length := by
      simp [FReferenceSkeleton.boneNames]
    refine ⟨?_, ?_, ?_, ?_⟩
    · rw [boneNames_Add]
      exact List.Nodup.append hUnique (List.nodup_singleton _) (by simpa using h1)
    · intro i hi hne
      simp only [FReferenceSkeleton.Add, List.length_append, List.length_singleton] at hi
      by_cases hlt2 : i < Mesh.RefSkeleton.RawRefBoneInfo.length
      · have e : (Mesh.RefSkeleton.Add
            { Name := SocketName ++ "_bone", ExportName := SocketName ++ "_bone",
              ParentIndex := (Mesh.RefSkeleton.boneNames.indexOf ParentBoneName : Int) }
            TM).RawRefBoneInfo[i] = Mesh.RefSkeleton.RawRefBoneInfo[i] := by
          simp [FReferenceSkeleton.Add, List.getElem_append_left, hlt2]
        rw [e] at hne ⊢
        exact hParents i hlt2 hne
      · have hi2 : i = Mesh.RefSkeleton.RawRefBoneInfo.length := by omega
        subst hi2
        simp [FReferenceSkeleton.Add]
        omega
    · intro _
      refine ⟨?_, ?_, ?_, ?_, ?_⟩
      · simp [FReferenceSkeleton.Add, FindRawBoneIndex_of_mem _ _ h2]
      · simp [FReferenceSkeleton.Add]
      · exact FindRawBoneIndex_Add_new _ _ _ h1
      · rw [FindRawBoneIndex_of_mem _ _ h2]; omega
      · rw [FindRawBoneIndex_of_mem _ _ h2]
        simp only [FReferenceSkeleton.GetRawBoneNum]
        omega
    · intro hn
      exact absurd ⟨h1, h2⟩ hn
  · rw [if_neg hc]
    exact ⟨hUnique, hParents, fun h => absurd h hc, fun _ => rfl⟩

/-! ## `AddUnique` and the per-LOD tables -/

theorem AddUnique_of_mem {α : Type} [DecidableEq α] (xs : List α) (x : α) (h : x ∈ xs) :
    AddUnique xs x = xs := by
  simp [AddUnique, h]

theorem mem_AddUnique_self {α : Type} [DecidableEq α] (xs : List α) (x : α) :
    x ∈ AddUnique xs x := by
  unfold AddUnique
  split <;> simp [*]

theorem mem_AddUnique {α : Type} [DecidableEq α] (xs : List α) (x y : α) :
    y ∈ AddUnique xs x ↔ y ∈ xs ∨ y = x := by
  unfold AddUnique
  split
  · constructor
    · intro h; exact Or.inl h
    · rintro (h | h)
      · exact h
      · subst h; assumption
  · simp

theorem count_AddUnique {α : Type} [DecidableEq α] (xs : List α) (x : α) (h : xs.Nodup) :
    (AddUnique xs x).count x = 1 := by
  unfold AddUnique
  split
  · exact List.count_eq_one_of_mem h (by assumption)
  · rename_i hx
    rw [List.count_append, List.count_eq_zero_of_not_mem hx]
    simp

theorem set_eq_self {α : Type} (l : List α) (n : Nat) (a : α) (h : l[n]? = some a) :
    l.set n a = l := by
  apply List.ext_getElem?
  intro i
  rw [List.getElem?_set]
  split
  · rename_i hi
    subst hi
    split
    · exact h.symm
    · rename_i hlt
      rw [List.getElem?_eq_none (by omega)] at h
      cases h
  · rfl

theorem AddBone_of_bound (L : FSkeletalMeshLODModel) (BoneIndex : Int)
    (h1 : toBoneIndexType BoneIndex ∈ L.RequiredBones)
    (h2 : toBoneIndexType BoneIndex ∈ L.ActiveBoneIndices)
    (h3 : ∀ s ∈ L.Sections, toBoneIndexType BoneIndex ∈ s.BoneMap) :
    L.AddBone BoneIndex = L := by
  unfold FSkeletalMeshLODModel.AddBone
  rw [AddUnique_of_mem _ _ h1, AddUnique_of_mem _ _ h2]
  have : L.Sections.map
      (fun s => ({ BoneMap := AddUnique s.BoneMap (toBoneIndexType BoneIndex) } :
        FSkelMeshSection)) = L.Sections := by
    conv_rhs => rw [← List.map_id L.Sections]
    apply List.map_congr_left
    intro s hs
    simp [AddUnique_of_mem _ _ (h3 s hs)]
  rw [this]

theorem AddBone_AddBone (L : FSkeletalMeshLODModel) (BoneIndex : Int) :
    (L.AddBone BoneIndex).AddBone BoneIndex = L.AddBone BoneIndex := by
  apply AddBone_of_bound
  · exact mem_AddUnique_self _ _
  · exact mem_AddUnique_self _ _
  · intro s hs
    simp only [FSkeletalMeshLODModel.AddBone, List.mem_map] at hs
    obtain ⟨s0, _, rfl⟩ := hs
    exact mem_AddUnique_self _ _

theorem toBoneIndexType_of_range (i : Int) (h0 : 0 ≤ i) (h1 : i < FBoneIndexTypeSize) :
    (toBoneIndexType i : Int) = i := by
  unfold toBoneIndexType
  unfold FBoneIndexTypeSize at *
  rw [Int.emod_eq_of_lt h0 h1]
  exact Int.toNat_of_nonneg h0

theorem AddBoneToMesh_eq (Mesh : USkeletalMesh) (LODIndex BoneIndex : Int)
    (L : FSkeletalMeshLODModel) (hIdx : 0 ≤ LODIndex)
    (hL : Mesh.LODModels[LODIndex.toNat]? = some L) :
    AddBoneToMesh Mesh LODIndex BoneIndex =
      some { Mesh with LODModels := Mesh.LODModels.set LODIndex.toNat (L.AddBone BoneIndex) } := by
  unfold AddBoneToMesh
  rw [if_pos hIdx, hL]

/-- For a valid `LODIndex`, `AddBoneToMesh` returns, and afterwards the
stored value of `BoneIndex` occurs exactly once in the LOD's `RequiredBones`,
in its `ActiveBoneIndices` and in the `BoneMap` of each of its sections,
whenever that list had no duplicates; when it was present in all of them the
LOD and the mesh are unchanged; a second identical call changes nothing; and
every other LOD is as before. -/
theorem AddBoneToMesh_stored_once (Mesh : USkeletalMesh) (LODIndex BoneIndex : Int)
    (L : FSkeletalMeshLODModel) (hIdx : 0 ≤ LODIndex)
    (hL : Mesh.LODModels[LODIndex.toNat]? = some L) :
    ∃ Mesh1 L1, AddBoneToMesh Mesh LODIndex BoneIndex = some Mesh1 ∧
      Mesh1.LODModels[LODIndex.toNat]? = some L1 ∧
      (L.RequiredBones.Nodup → L1.RequiredBones.count (toBoneIndexType BoneIndex) = 1) ∧
      (L.ActiveBoneIndices.Nodup →
        L1.ActiveBoneIndices.count (toBoneIndexType BoneIndex) = 1) ∧
      L1.Sections.length = L.Sections.length ∧
      (∀ (k : Nat) (s : FSkelMeshSection), L.Sections[k]? = some s →
        ∃ s1 : FSkelMeshSection, L1.Sections[k]? = some s1 ∧
          (s.BoneMap.Nodup → s1.BoneMap.count (toBoneIndexType BoneIndex) = 1)) ∧
      ((toBoneIndexType BoneIndex ∈ L.RequiredBones ∧
          toBoneIndexType BoneIndex ∈ L.ActiveBoneIndices ∧
          ∀ s ∈ L.Sections, toBoneIndexType BoneIndex ∈ s.BoneMap) →
        L1 = L ∧ Mesh1 = Mesh) ∧
      AddBoneToMesh Mesh1 LODIndex BoneIndex = some Mesh1 ∧
      (∀ j, j ≠ LODIndex.toNat → Mesh1.LODModels[j]? = Mesh.LODModels[j]?) ∧
      Mesh1.LODModels.length = Mesh.LODModels.length ∧
      ((0 ≤ BoneIndex ∧ BoneIndex < FBoneIndexTypeSize) →
        (toBoneIndexType BoneIndex : Int) = BoneIndex) := by
  have hlt : LODIndex.toNat < Mesh.LODModels.length := by
    by_contra hn
    rw [List.getElem?_eq_none (by omega)] at hL
    cases hL
  have hget : (Mesh.LODModels.set LODIndex.toNat (L.AddBone BoneIndex))[LODIndex.toNat]? =
      some (L.AddBone BoneIndex) := by
    rw [List.getElem?_set_self hlt]
  refine ⟨_, L.AddBone BoneIndex, AddBoneToMesh_eq Mesh LODIndex BoneIndex L hIdx hL, hget,
    ?_, ?_, ?_, ?_, ?_, ?_, ?_, ?_, ?_⟩
  · exact count_AddUnique _ _
  · exact count_AddUnique _ _
  · simp [FSkeletalMeshLODModel.AddBone]
  · intro k s hs
    refine ⟨{ BoneMap := AddUnique s.BoneMap (toBoneIndexType BoneIndex) }, ?_, ?_⟩
    · simp [FSkeletalMeshLODModel.AddBone, hs]
    · exact count_AddUnique _ _
  · rintro ⟨h1, h2, h3⟩
    have e := AddBone_of_bound L BoneIndex h1 h2 h3
    refine ⟨e, ?_⟩
    rw [e, set_eq_self _ _ _ hL]
  · rw [AddBoneToMesh_eq _ LODIndex BoneIndex (L.AddBone BoneIndex) hIdx hget]
    simp [AddBone_AddBone]
  · intro j hj
    simp only
    rw [List.getElem?_set_ne (Ne.symm hj)]
  · simp
  · rintro ⟨h0, h1⟩
    exact toBoneIndexType_of_range _ h0 h1

theorem count_storedIndices (Table : List Nat) (v : Nat) (BoneIndex : Int)
    (hv : (v : Int) = BoneIndex) :
    (storedIndices Table).count BoneIndex = Table.count v := by
  rw [← hv]
  exact List.count_map_of_injective Table Int.ofNat (fun _ _ h => Int.ofNat.inj h) v

theorem mem_storedIndices (Table : List Nat) (v : Nat) (BoneIndex : Int)
    (hv : (v : Int) = BoneIndex) :
    BoneIndex ∈ storedIndices Table ↔ v ∈ Table := by
  rw [← hv]
  simp [storedIndices]

/-- C6, as amended: for a valid `LODIndex` and a `BoneIndex` with
0 <= `BoneIndex` < 65536, `AddBoneToMesh` returns, and afterwards `BoneIndex`
occurs exactly once in the LOD's `RequiredBones`, in its `ActiveBoneIndices`
and in the `BoneMap` of each of its sections, whenever that list had no
duplicates; when `BoneIndex` was present in all of them the LOD and the mesh
are unchanged; a second identical call changes nothing; and every other LOD
is as before. -/
theorem AddBoneToMesh_binds_once (Mesh : USkeletalMesh) (LODIndex BoneIndex : Int)
    (L : FSkeletalMeshLODModel) (hIdx : 0 ≤ LODIndex)
    (hL : Mesh.LODModels[LODIndex.toNat]? = some L)
    (hLow : 0 ≤ BoneIndex) (hHigh : BoneIndex < FBoneIndexTypeSize) :
    ∃ Mesh1 L1, AddBoneToMesh Mesh LODIndex BoneIndex = some Mesh1 ∧
      Mesh1.LODModels[LODIndex.toNat]? = some L1 ∧
      (L.RequiredBones.Nodup → (storedIndices L1.RequiredBones).count BoneIndex = 1) ∧
      (L.ActiveBoneIndices.Nodup →
        (storedIndices L1.ActiveBoneIndices).count BoneIndex = 1) ∧
      L1.Sections.length = L.Sections.length ∧
      (∀ (k : Nat) (s : FSkelMeshSection), L.Sections[k]? = some s →
        ∃ s1 : FSkelMeshSection, L1.Sections[k]? = some s1 ∧
          (s.BoneMap.Nodup → (storedIndices s1.BoneMap).count BoneIndex = 1)) ∧
      ((BoneIndex ∈ storedIndices L.RequiredBones ∧
          BoneIndex ∈ storedIndices L.ActiveBoneIndices ∧
          ∀ s ∈ L.Sections, BoneIndex ∈ storedIndices s.BoneMap) →
        L1 = L ∧ Mesh1 = Mesh) ∧
      AddBoneToMesh Mesh1 LODIndex BoneIndex = some Mesh1 ∧
      (∀ j, j ≠ LODIndex.toNat → Mesh1.LODModels[j]? = Mesh.LODModels[j]?) ∧
      Mesh1.LODModels.length = Mesh.LODModels.length := by
  obtain ⟨Mesh1, L1, h1, h2, h3, h4, h5, h6, h7, h8, h9, h10, h11⟩ :=
    AddBoneToMesh_stored_once Mesh LODIndex BoneIndex L hIdx hL
  have hv : (toBoneIndexType BoneIndex : Int) = BoneIndex := h11 ⟨hLow, hHigh⟩
  refine ⟨Mesh1, L1, h1, h2, ?_, ?_, h5, ?_, ?_, h8, h9, h10⟩
  · intro hn
    rw [count_storedIndices _ _ _ hv]
    exact h3 hn
  · intro hn
    rw [count_storedIndices _ _ _ hv]
    exact h4 hn
  · intro k s hs
    obtain ⟨s1, hs1, hc⟩ := h6 k s hs
    refine ⟨s1, hs1, ?_⟩
    intro hn
    rw [count_storedIndices _ _ _ hv]
    exact hc hn
  · rintro ⟨m1, m2, m3⟩
    refine h7 ⟨(mem_storedIndices _ _ _ hv).mp m1, (mem_storedIndices _ _ _ hv).mp m2, ?_⟩
    intro s hs
    exact (mem_storedIndices _ _ _ hv).mp (m3 s hs)

/-- C6 fails as stated for a `BoneIndex` the 16 bit tables cannot hold.  The
tables of LOD 0 of `targetMesh` are `[0]`, without duplicates.  With the
bone index `INDEX_NONE` every table becomes `[0, 65535]`, and with 65536 the
mesh stays as it is, since 65536 is stored as 0: in both cases `BoneIndex`
occurs in no table afterwards. -/
theorem AddBoneToMesh_out_of_range_index :
    targetMesh.LODModels[0]? = some rootLOD ∧
    rootLOD.RequiredBones.Nodup ∧ rootLOD.ActiveBoneIndices.Nodup ∧
    (∀ s ∈ rootLOD.Sections, s.BoneMap.Nodup) ∧
    AddBoneToMesh targetMesh 0 INDEX_NONE = some targetMeshNoIndex ∧
    targetMeshNoIndex.LODModels =
      [{ RequiredBones := [0, 65535], ActiveBoneIndices := [0, 65535],
         Sections := [{ BoneMap := [0, 65535] }] }] ∧
    (storedIndices [0, 65535]).count INDEX_NONE = 0 ∧
    AddBoneToMesh targetMesh 0 65536 = some targetMesh ∧
    (storedIndices rootLOD.RequiredBones).count 65536 = 0 ∧
    (storedIndices rootLOD.ActiveBoneIndices).count 65536 = 0 := by
  decide

/-! ## The loop over the LODs -/

theorem AddBoneToReductionSetting_fields (M : USkeletalMesh) (i : Nat) (n : FName) :
    (M.AddBoneToReductionSetting i n).RefSkeleton = M.RefSkeleton ∧
    (M.AddBoneToReductionSetting i n).LODModels = M.LODModels ∧
    (M.AddBoneToReductionSetting i n).Name = M.Name ∧
    (M.AddBoneToReductionSetting i n).Skeleton = M.Skeleton := by
  unfold USkeletalMesh.AddBoneToReductionSetting
  split <;> simp

theorem addBoneToEveryLOD_upto (NewBoneIndex : Int) (M : USkeletalMesh) (n : Nat)
    (hn : n ≤ M.LODModels.length) :
    ∃ M1, (List.range n).foldlM
        (fun M i => (AddBoneToMesh M (Int.ofNat i) NewBoneIndex).map
          (fun M1 => M1.AddBoneToReductionSetting i (FName.ofFString ""))) M = some M1 ∧
      M1.RefSkeleton = M.RefSkeleton ∧ M1.Name = M.Name ∧ M1.Skeleton = M.Skeleton ∧
      M1.LODModels.length = M.LODModels.length ∧
      ∀ j : Nat, M1.LODModels[j]? =
        if j < n then (M.LODModels[j]?).map (fun L => L.AddBone NewBoneIndex)
        else M.LODModels[j]? := by
  induction n with
  | zero => exact ⟨M, by simp⟩
  | succ n ih =>
    obtain ⟨M1, h1, hR, hN, hS, hlen, hget⟩ := ih (by omega)
    have hlt : n < M.LODModels.length := by omega
    have hto : (Int.ofNat n).toNat = n := rfl
    have hM1n : M1.LODModels[(Int.ofNat n).toNat]? = some (M.LODModels[n]) := by
      rw [hto, hget n]
      simp [hlt]
    have hstep := AddBoneToMesh_eq M1 (Int.ofNat n) NewBoneIndex _ (Int.ofNat_nonneg n) hM1n
    rw [hto] at hstep
    obtain ⟨f1, f2, f3, f4⟩ := AddBoneToReductionSetting_fields
      { M1 with LODModels := M1.LODModels.set n ((M.LODModels[n]).AddBone NewBoneIndex) } n
      (FName.ofFString "")
    refine ⟨USkeletalMesh.AddBoneToReductionSetting
      { M1 with LODModels := M1.LODModels.set n ((M.LODModels[n]).AddBone NewBoneIndex) } n
      (FName.ofFString ""), ?_, ?_, ?_, ?_, ?_, ?_⟩
    · rw [List.range_succ, List.foldlM_append, h1]
      simp only [Option.bind_eq_bind, Option.some_bind, List.foldlM_cons, List.foldlM_nil, hstep,
        Option.map_some']
      rfl
    · rw [f1]; exact hR
    · rw [f3]; exact hN
    · rw [f4]; exact hS
    · rw [f2]; simp [hlen]
    · intro j
      rw [f2]
      simp only
      by_cases hj : j = n
      · subst hj
        rw [List.getElem?_set_self (by omega)]
        simp [hlt]
      · rw [List.getElem?_set_ne (Ne.symm hj), hget j]
        by_cases hjn : j < n
        · simp [hjn, Nat.lt_succ_of_lt hjn]
        · have : ¬ j < n + 1 := by omega
          simp [hjn, this]

/-- The loop over the LODs always completes; it binds the index in every LOD
and leaves the reference skeleton alone. -/
theorem addBoneToEveryLOD_spec (M : USkeletalMesh) (NewBoneIndex : Int) :
    ∃ M1, addBoneToEveryLOD M NewBoneIndex = some M1 ∧
      M1.RefSkeleton = M.RefSkeleton ∧ M1.Name = M.Name ∧ M1.Skeleton = M.Skeleton ∧
      M1.LODModels = M.LODModels.map (fun L => L.AddBone NewBoneIndex) := by
  obtain ⟨M1, h1, hR, hN, hS, _, hget⟩ :=
    addBoneToEveryLOD_upto NewBoneIndex M M.LODModels.length (Nat.le_refl _)
  refine ⟨M1, h1, hR, hN, hS, ?_⟩
  apply List.ext_getElem?
  intro j
  rw [hget j, List.getElem?_map]
  by_cases hj : j < M.LODModels.length
  · simp [hj]
  · simp [hj, List.getElem?_eq_none (Nat.le_of_not_lt hj)]

/-! ## Converting sockets -/

theorem convertSocket_spec (M : USkeletalMesh) (Log : List EditorEvent)
    (S : USkeletalMeshSocket) :
    ∃ M1 Log1, convertSocket (M, Log) S = some (M1, Log1) ∧
      M1.RefSkeleton =
        (AddBoneToSkeleton S.SocketName S.BoneName S.GetSocketLocalTransform M).1.RefSkeleton ∧
      M1.LODModels =
        (AddBoneToSkeleton S.SocketName S.BoneName S.GetSocketLocalTransform M).1.LODModels.map
          (fun L => L.AddBone
            ((AddBoneToSkeleton S.SocketName S.BoneName S.GetSocketLocalTransform
              M).1.RefSkeleton.FindRawBoneIndex (FName.ofFString (S.SocketName ++ "_bone")))) := by
  obtain ⟨M1, h1, hR, _, _, hL⟩ := addBoneToEveryLOD_spec
    (AddBoneToSkeleton S.SocketName S.BoneName S.GetSocketLocalTransform M).1
    ((AddBoneToSkeleton S.SocketName S.BoneName S.GetSocketLocalTransform
      M).1.RefSkeleton.FindRawBoneIndex (FName.ofFString (S.SocketName ++ "_bone")))
  refine ⟨M1, Log ++ (AddBoneToSkeleton S.SocketName S.BoneName S.GetSocketLocalTransform M).2,
    ?_, hR, hL⟩
  unfold convertSocket
  simp only [h1, Option.map_some']

theorem convertSockets_spec (Sockets : List USkeletalMeshSocket) :
    ∀ (M : USkeletalMesh) (Log : List EditorEvent),
      ∃ M1 Log1, Sockets.foldlM convertSocket (M, Log) = some (M1, Log1) ∧
        M1.RefSkeleton.RawRefBoneInfo = M.RefSkeleton.RawRefBoneInfo ++
          (socketBones M.RefSkeleton.boneNames Sockets).map Prod.fst ∧
        M1.RefSkeleton.RawRefBonePose = M.RefSkeleton.RawRefBonePose ++
          (socketBones M.RefSkeleton.boneNames Sockets).map Prod.snd := by
  induction Sockets with
  | nil => intro M Log; exact ⟨M, Log, by simp [socketBones]⟩
  | cons S rest ih =>
    intro M Log
    obtain ⟨M1, Log1, h1, hR, _⟩ := convertSocket_spec M Log S
    obtain ⟨M2, Log2, h2, hI, hP⟩ := ih M1 Log1
    refine ⟨M2, Log2, ?_, ?_, ?_⟩
    · rw [List.foldlM_cons, h1]
      exact h2
    · rw [hI, hR, AddBoneToSkeleton_RefSkeleton]
      by_cases hc : S.SocketName ++ "_bone" ∉ M.RefSkeleton.boneNames ∧
          S.BoneName ∈ M.RefSkeleton.boneNames
      · rw [if_pos hc, boneNames_Add]
        simp [socketBones, hc.1, hc.2, FReferenceSkeleton.Add]
      · rw [if_neg hc]
        have hc2 : ¬ (S.BoneName ∈ M.RefSkeleton.boneNames ∧
            S.SocketName ++ "_bone" ∉ M.RefSkeleton.boneNames) := fun h => hc ⟨h.2, h.1⟩
        simp only [socketBones, if_neg hc2]
    · rw [hP, hR, AddBoneToSkeleton_RefSkeleton]
      by_cases hc : S.SocketName ++ "_bone" ∉ M.RefSkeleton.boneNames ∧
          S.BoneName ∈ M.RefSkeleton.boneNames
      · rw [if_pos hc, boneNames_Add]
        simp [socketBones, hc.1, hc.2, FReferenceSkeleton.Add,
          USkeletalMeshSocket.GetSocketLocalTransform]
      · rw [if_neg hc]
        have hc2 : ¬ (S.BoneName ∈ M.RefSkeleton.boneNames ∧
            S.SocketName ++ "_bone" ∉ M.RefSkeleton.boneNames) := fun h => hc ⟨h.2, h.1⟩
        simp only [socketBones, if_neg hc2]

/-- A socket whose parent bone is not present when its turn comes adds
nothing, and the sockets behind it are treated as if it were not there. -/
theorem socketBones_skip (S : USkeletalMeshSocket) (post : List USkeletalMeshSocket)
    (pre : List USkeletalMeshSocket) :
    ∀ present : List FName,
      S.BoneName ∉ present ++ (socketBones present pre).map (fun b => b.1.Name) →
      socketBones present (pre ++ S :: post) = socketBones present (pre ++ post) := by
  induction pre with
  | nil =>
    intro present h
    simp only [socketBones, List.map_nil, List.append_nil] at h
    simp [socketBones, h]
  | cons T pre ih =>
    intro present h
    by_cases hc : T.BoneName ∈ present ∧ T.SocketName ++ "_bone" ∉ present
    · simp only [socketBones, if_pos hc, List.map_cons] at h
      have e := ih (present ++ [T.SocketName ++ "_bone"]) (by simpa using h)
      simp only [List.cons_append, socketBones, if_pos hc]
      exact congrArg (List.cons _) e
    · simp only [socketBones, if_neg hc] at h
      simp only [List.cons_append, socketBones, if_neg hc]
      exact ih present h

theorem getElem?_lt_length {α : Type} (l : List α) (n : Nat) (a : α) (h : l[n]? = some a) :
    n < l.length := by
  by_contra hn
  rw [List.getElem?_eq_none (by omega)] at h
  cases h

/-- C7: for distinct live source and target meshes with skeletons,
`ConvertSocketsToBones` returns, and the target's reference skeleton is then
the original one followed by the bones of `socketBones`: in the stored order
of the source skeleton's sockets, one bone named `SocketName + "_bone"`,
parented to the socket's bone and carrying the socket's local transform, for
exactly the sockets whose parent bone was present and whose derived name was
not when the socket was processed.  A socket whose parent is missing when
its turn comes gives no bone, and the sockets after it are converted as if
it were not there. -/
theorem ConvertSocketsToBones_appends (w : World) (sp tp sk tsk : Nat)
    (Source Target : USkeletalMesh) (Skeleton : USkeleton)
    (hDistinct : sp ≠ tp) (hSource : w.Meshes[sp]? = some Source)
    (hTarget : w.Meshes[tp]? = some Target) (hSk : Source.Skeleton = some sk)
    (hSkeleton : w.Skeletons[sk]? = some Skeleton) (hTsk : Target.Skeleton = some tsk) :
    ∃ w1 Target1, ConvertSocketsToBones w (some sp) (some tp) = some w1 ∧
      w1.Meshes[tp]? = some Target1 ∧
      Target1.RefSkeleton.RawRefBoneInfo = Target.RefSkeleton.RawRefBoneInfo ++
        (socketBones Target.RefSkeleton.boneNames Skeleton.Sockets).map Prod.fst ∧
      Target1.RefSkeleton.RawRefBonePose = Target.RefSkeleton.RawRefBonePose ++
        (socketBones Target.RefSkeleton.boneNames Skeleton.Sockets).map Prod.snd ∧
      (∀ pre S post, Skeleton.Sockets = pre ++ S :: post →
        S.BoneName ∉ Target.RefSkeleton.boneNames ++
          (socketBones Target.RefSkeleton.boneNames pre).map (fun b => b.1.Name) →
        Target1.RefSkeleton.RawRefBoneInfo = Target.RefSkeleton.RawRefBoneInfo ++
          (socketBones Target.RefSkeleton.boneNames (pre ++ post)).map Prod.fst) := by
  obtain ⟨M1, Log1, hfold, hI, hP⟩ := convertSockets_spec Skeleton.Sockets Target []
  have hlt := getElem?_lt_length _ _ _ hTarget
  have hrun : ∃ w1, ConvertSocketsToBones w (some sp) (some tp) = some w1 ∧
      w1.Meshes = w.Meshes.set tp M1 := by
    simp only [ConvertSocketsToBones, if_neg hDistinct, hSource, hTarget, hSk, hSkeleton, hfold,
      hTsk]
    exact ⟨_, rfl, rfl⟩
  obtain ⟨w1, hw1, hM⟩ := hrun
  refine ⟨w1, M1, hw1, ?_, hI, hP, ?_⟩
  · rw [hM, List.getElem?_set_self hlt]
  · intro pre S post hS hmiss
    rw [hI, hS, socketBones_skip S post pre _ hmiss]

/-! ## Validation -/

theorem OnlyReported_MessageLogError (w : World) (Text : FString) :
    OnlyReported w (w.MessageLogError Text) :=
  ⟨rfl, rfl, Text, rfl⟩

theorem reported_of_eq (w : World) (o : Option World)
    (h : ∃ Text, o = some (w.MessageLogError Text)) :
    ∃ w1, o = some w1 ∧ OnlyReported w w1 := by
  obtain ⟨Text, rfl⟩ := h
  exact ⟨_, rfl, OnlyReported_MessageLogError w Text⟩

/-- C8: when a validation check of a public operation fails, the operation
returns a world that differs from the old one by the reported error only:
meshes (reference skeletons, per-LOD tables) and skeletons are unchanged and
no asset is closed, saved or reloaded.  The checks are, for
`ConvertSocketsToBones`: target null, source null, source and target the
same, source without skeleton; for `AddBonesToMesh`: mesh null, empty
`BoneName`, mesh without skeleton, `ParentBoneName` not a bone of the
reference skeleton; for `RemoveBonesFromMesh`: `BoneName` none, mesh null,
mesh without skeleton. -/
theorem validation_failure_only_reports (w : World) :
    (∀ SkeletalMesh, ∃ w1,
      ConvertSocketsToBones w SkeletalMesh none = some w1 ∧ OnlyReported w w1) ∧
    (∀ TargetSkeletalMesh, ∃ w1,
      ConvertSocketsToBones w none TargetSkeletalMesh = some w1 ∧ OnlyReported w w1) ∧
    (∀ p, ∃ w1,
      ConvertSocketsToBones w (some p) (some p) = some w1 ∧ OnlyReported w w1) ∧
    (∀ sp tp Source Target, w.Meshes[sp]? = some Source → w.Meshes[tp]? = some Target →
      Source.Skeleton = none →
      ∃ w1, ConvertSocketsToBones w (some sp) (some tp) = some w1 ∧ OnlyReported w w1) ∧
    (∀ BoneName ParentBoneName TM, ∃ w1,
      AddBonesToMesh w none BoneName ParentBoneName TM = some w1 ∧ OnlyReported w w1) ∧
    (∀ p ParentBoneName TM, ∃ w1,
      AddBonesToMesh w (some p) "" ParentBoneName TM = some w1 ∧ OnlyReported w w1) ∧
    (∀ p Mesh BoneName ParentBoneName TM, w.Meshes[p]? = some Mesh → Mesh.Skeleton = none →
      ∃ w1, AddBonesToMesh w (some p) BoneName ParentBoneName TM = some w1 ∧
        OnlyReported w w1) ∧
    (∀ p Mesh sk Skeleton BoneName ParentBoneName TM, w.Meshes[p]? = some Mesh →
      Mesh.Skeleton = some sk → w.Skeletons[sk]? = some Skeleton →
      Mesh.RefSkeleton.FindRawBoneIndex (FName.ofFString ParentBoneName) = INDEX_NONE →
      ∃ w1, AddBonesToMesh w (some p) BoneName ParentBoneName TM = some w1 ∧
        OnlyReported w w1) ∧
    (∀ SkeletalMesh BoneName bAllMeshes, FName.IsNone BoneName = true →
      ∃ w1, RemoveBonesFromMesh w SkeletalMesh BoneName bAllMeshes = some w1 ∧
        OnlyReported w w1) ∧
    (∀ BoneName bAllMeshes, ∃ w1,
      RemoveBonesFromMesh w none BoneName bAllMeshes = some w1 ∧ OnlyReported w w1) ∧
    (∀ p Mesh BoneName bAllMeshes, w.Meshes[p]? = some Mesh → Mesh.Skeleton = none →
      ∃ w1, RemoveBonesFromMesh w (some p) BoneName bAllMeshes = some w1 ∧
        OnlyReported w w1) := by
  refine ⟨?_, ?_, ?_, ?_, ?_, ?_, ?_, ?_, ?_, ?_, ?_⟩
  · intro s
    exact reported_of_eq _ _ ⟨_, rfl⟩
  · intro t
    cases t with
    | none => exact reported_of_eq _ _ ⟨_, rfl⟩
    | some tp => exact reported_of_eq _ _ ⟨_, rfl⟩
  · intro p
    apply reported_of_eq
    simp only [ConvertSocketsToBones, if_true]
    exact ⟨_, rfl⟩
  · intro sp tp Source Target hS hT hSk
    by_cases h : sp = tp
    · apply reported_of_eq
      simp only [ConvertSocketsToBones, if_pos h]
      exact ⟨_, rfl⟩
    · apply reported_of_eq
      simp only [ConvertSocketsToBones, if_neg h, hS, hT, hSk]
      exact ⟨_, rfl⟩
  · intro B P T
    exact reported_of_eq _ _ ⟨_, rfl⟩
  · intro p P T
    apply reported_of_eq
    simp only [AddBonesToMesh, if_true]
    exact ⟨_, rfl⟩
  · intro p Mesh B P T hM hSk
    by_cases h : B = ""
    · apply reported_of_eq
      simp only [AddBonesToMesh, if_pos h]
      exact ⟨_, rfl⟩
    · apply reported_of_eq
      simp only [AddBonesToMesh, if_neg h, hM, hSk]
      exact ⟨_, rfl⟩
  · intro p Mesh sk Skeleton B P T hM hSk hSkel hP
    by_cases h : B = ""
    · apply reported_of_eq
      simp only [AddBonesToMesh, if_pos h]
      exact ⟨_, rfl⟩
    · apply reported_of_eq
      simp only [AddBonesToMesh, if_neg h, hM, hSk, hSkel, if_pos hP]
      exact ⟨_, rfl⟩
  · intro s B b hB
    apply reported_of_eq
    simp only [RemoveBonesFromMesh, hB, if_true]
    exact ⟨_, rfl⟩
  · intro B b
    by_cases h : FName.IsNone B = true
    · apply reported_of_eq
      simp only [RemoveBonesFromMesh, h, if_true]
      exact ⟨_, rfl⟩
    · apply reported_of_eq
      simp only [RemoveBonesFromMesh, if_neg h]
      exact ⟨_, rfl⟩
  · intro p Mesh B b hM hSk
    by_cases h : FName.IsNone B = true
    · apply reported_of_eq
      simp only [RemoveBonesFromMesh, h, if_true]
      exact ⟨_, rfl⟩
    · apply reported_of_eq
      simp only [RemoveBonesFromMesh, if_neg h, hM, hSk]
      exact ⟨_, rfl⟩

/-! ## Removing a bone -/

theorem removeBoneFromMesh_eq (Skeleton : Nat) (BoneName : FName) (w : World) (p : Nat)
    (M : USkeletalMesh) (h : w.Meshes[p]? = some M) :
    ∃ w1, removeBoneFromMesh Skeleton BoneName w p = some w1 ∧
      w1.Skeletons = w.Skeletons ∧
      w1.Meshes = w.Meshes.set p
        { M with RefSkeleton := M.RefSkeleton.RemoveBonesByName [BoneName] } := by
  simp only [removeBoneFromMesh, h]
  exact ⟨_, rfl, rfl, rfl⟩

theorem removeLoop_spec (Skeleton : Nat) (BoneName : FName) (ps : List Nat) :
    ∀ w : World, ps.Nodup → (∀ p ∈ ps, p < w.Meshes.length) →
      ∃ w1, ps.foldlM (removeBoneFromMesh Skeleton BoneName) w = some w1 ∧
        w1.Skeletons = w.Skeletons ∧ w1.Meshes.length = w.Meshes.length ∧
        ∀ q : Nat, w1.Meshes[q]? =
          if q ∈ ps then
            (w.Meshes[q]?).map (fun M =>
              { M with RefSkeleton := M.RefSkeleton.RemoveBonesByName [BoneName] })
          else w.Meshes[q]? := by
  induction ps with
  | nil => intro w _ _; exact ⟨w, by simp⟩
  | cons p ps ih =>
    intro w hnd hb
    have hp : p < w.Meshes.length := hb p (List.mem_cons_self _ _)
    have hM : w.Meshes[p]? = some (w.Meshes[p]) := List.getElem?_eq_getElem hp
    obtain ⟨w2, h2, hS2, hM2⟩ := removeBoneFromMesh_eq Skeleton BoneName w p _ hM
    have hlen2 : w2.Meshes.length = w.Meshes.length := by rw [hM2]; simp
    obtain ⟨hpn, hnd2⟩ := List.nodup_cons.mp hnd
    obtain ⟨w1, h1, hS1, hlen1, hget⟩ := ih w2 hnd2
      (fun q hq => by rw [hlen2]; exact hb q (List.mem_cons_of_mem _ hq))
    refine ⟨w1, ?_, ?_, ?_, ?_⟩
    · rw [List.foldlM_cons, h2]
      exact h1
    · rw [hS1, hS2]
    · rw [hlen1, hlen2]
    · intro q
      rw [hget q, hM2]
      by_cases hq : q = p
      · subst hq
        simp [hpn, hp]
      · have hne : p ≠ q := Ne.symm hq
        rw [List.getElem?_set_ne hne]
        simp [hq]

theorem FindCompatibleMeshes_nodup (w : World) (Skeleton : Nat) :
    (FindCompatibleMeshes w Skeleton).Nodup :=
  List.Nodup.filter _ (List.nodup_range _)

theorem FindCompatibleMeshes_lt (w : World) (Skeleton : Nat) :
    ∀ p ∈ FindCompatibleMeshes w Skeleton, p < w.Meshes.length := by
  intro p hp
  simp only [FindCompatibleMeshes, List.mem_filter, List.mem_range] at hp
  exact hp.1

/-- C9, as amended: for a live mesh with a skeleton and a bone name other
than none, `RemoveBonesFromMesh` returns; the reference skeleton of every
mesh in scope (the given mesh, or every mesh of `FindCompatibleMeshes` when
`bAllMeshes` is set) is the one `RemoveBonesByName` leaves for that name, the
reference skeletons of the other meshes stay; and the per-LOD tables of every
mesh are exactly the ones stored before: no index is dropped or
renumbered. -/
theorem RemoveBonesFromMesh_keeps_tables (w : World) (p sk : Nat) (Mesh : USkeletalMesh)
    (BoneName : FName) (bAllMeshes : Bool)
    (hMesh : w.Meshes[p]? = some Mesh) (hSk : Mesh.Skeleton = some sk)
    (hName : FName.IsNone BoneName = false) :
    ∃ w1, RemoveBonesFromMesh w (some p) BoneName bAllMeshes = some w1 ∧
      w1.Meshes.length = w.Meshes.length ∧
      ∀ (q : Nat) (M : USkeletalMesh), w.Meshes[q]? = some M →
        ∃ M1, w1.Meshes[q]? = some M1 ∧ M1.LODModels = M.LODModels ∧
          (q ∈ (if bAllMeshes then FindCompatibleMeshes w sk else [p]) →
            M1.RefSkeleton = M.RefSkeleton.RemoveBonesByName [BoneName]) ∧
          (q ∉ (if bAllMeshes then FindCompatibleMeshes w sk else [p]) →
            M1.RefSkeleton = M.RefSkeleton) := by
  have hplt := getElem?_lt_length _ _ _ hMesh
  have hnd : (if bAllMeshes then FindCompatibleMeshes w sk else [p]).Nodup := by
    split
    · exact FindCompatibleMeshes_nodup w sk
    · exact List.nodup_singleton p
  have hb : ∀ q ∈ (if bAllMeshes then FindCompatibleMeshes w sk else [p]),
      q < (ForceCloseAsset w (UObjectPtr.Skeleton sk)).Meshes.length := by
    intro q hq
    split at hq
    · exact FindCompatibleMeshes_lt w sk q hq
    · rw [List.mem_singleton] at hq
      subst hq
      exact hplt
  obtain ⟨w2, h2, _, hlen, hget⟩ := removeLoop_spec sk BoneName _ _ hnd hb
  have hrun : ∃ w1, RemoveBonesFromMesh w (some p) BoneName bAllMeshes = some w1 ∧
      w1.Meshes = w2.Meshes := by
    simp only [RemoveBonesFromMesh, hName, hMesh, hSk, h2]
    exact ⟨_, rfl, rfl⟩
  obtain ⟨w1, hw1, hM⟩ := hrun
  refine ⟨w1, hw1, ?_, ?_⟩
  · rw [hM, hlen]; rfl
  · intro q M hq
    have hq2 : (ForceCloseAsset w (UObjectPtr.Skeleton sk)).Meshes[q]? = some M := hq
    by_cases hin : q ∈ (if bAllMeshes then FindCompatibleMeshes w sk else [p])
    · refine ⟨{ M with RefSkeleton := M.RefSkeleton.RemoveBonesByName [BoneName] }, ?_, rfl,
        ?_, fun h => absurd hin h⟩
      · rw [hM, hget q, if_pos hin, hq2]; rfl
      · intro _
        rfl
    · refine ⟨M, ?_, rfl, fun h => absurd h hin, fun _ => rfl⟩
      rw [hM, hget q, if_neg hin, hq2]

/-! ## Adding a bone by name -/

/-- C1: what `AddBonesToMesh` does on every input the claim speaks of (a
live mesh with a skeleton, a non-empty `BoneName` that is not yet a bone, a
`ParentBoneName` that is one): it returns, the bone it inserts is named
`BoneName + "_bone"`, and the lookup of `BoneName` that follows gives
`INDEX_NONE`, not the index of the inserted bone; `INDEX_NONE` is what the
loop then binds in every LOD. -/
theorem AddBonesToMesh_looks_up_other_name (w : World) (p sk : Nat) (Mesh : USkeletalMesh)
    (Skeleton : USkeleton) (BoneName ParentBoneName : FString) (TM : FTransform)
    (hMesh : w.Meshes[p]? = some Mesh) (hSk : Mesh.Skeleton = some sk)
    (hSkeleton : w.Skeletons[sk]? = some Skeleton) (hNonEmpty : BoneName ≠ "")
    (hNew : Mesh.RefSkeleton.FindRawBoneIndex (FName.ofFString BoneName) = INDEX_NONE)
    (hParent : Mesh.RefSkeleton.FindRawBoneIndex (FName.ofFString ParentBoneName) ≠
      INDEX_NONE) :
    ∃ w1 Mesh1, AddBonesToMesh w (some p) BoneName ParentBoneName TM = some w1 ∧
      w1.Meshes[p]? = some Mesh1 ∧
      Mesh1.RefSkeleton.FindRawBoneIndex (FName.ofFString BoneName) = INDEX_NONE ∧
      Mesh1.LODModels = Mesh.LODModels.map (fun L => L.AddBone INDEX_NONE) ∧
      (BoneName ++ "_bone" ∉ Mesh.RefSkeleton.boneNames →
        Mesh1.RefSkeleton.RawRefBoneInfo = Mesh.RefSkeleton.RawRefBoneInfo ++
          [{ Name := BoneName ++ "_bone", ExportName := BoneName ++ "_bone",
             ParentIndex :=
               Mesh.RefSkeleton.FindRawBoneIndex (FName.ofFString ParentBoneName) }] ∧
        Mesh1.RefSkeleton.FindRawBoneIndex (BoneName ++ "_bone") =
          (Mesh.RefSkeleton.GetRawBoneNum : Int)) := by
  have hB : FName.ofFString BoneName = BoneName := ofFString_of_ne_empty _ hNonEmpty
  rw [hB] at hNew
  have hnot : BoneName ∉ Mesh.RefSkeleton.boneNames := (FindRawBoneIndex_eq_none_iff _ _).mp hNew
  have hpm : FName.ofFString ParentBoneName ∈ Mesh.RefSkeleton.boneNames := by
    by_contra hn
    exact hParent ((FindRawBoneIndex_eq_none_iff _ _).mpr hn)
  have hR := AddBoneToSkeleton_RefSkeleton BoneName (FName.ofFString ParentBoneName) TM Mesh
  have hrest := AddBoneToSkeleton_rest BoneName (FName.ofFString ParentBoneName) TM Mesh
  have hlook : (AddBoneToSkeleton BoneName (FName.ofFString ParentBoneName) TM
      Mesh).1.RefSkeleton.FindRawBoneIndex BoneName = INDEX_NONE := by
    rw [hR]
    split
    · exact FindRawBoneIndex_Add_other _ _ _ _ hnot (Ne.symm (derived_ne_self BoneName))
    · exact hNew
  obtain ⟨M1, h1, hR1, _, _, hL1⟩ := addBoneToEveryLOD_spec
    (AddBoneToSkeleton BoneName (FName.ofFString ParentBoneName) TM Mesh).1 INDEX_NONE
  have hlt := getElem?_lt_length _ _ _ hMesh
  have hrun : ∃ w1, AddBonesToMesh w (some p) BoneName ParentBoneName TM = some w1 ∧
      w1.Meshes = w.Meshes.set p M1 := by
    simp only [AddBonesToMesh, if_neg hNonEmpty, hMesh, hSk, hSkeleton, if_neg hParent, hB,
      hlook, h1]
    exact ⟨_, rfl, rfl⟩
  obtain ⟨w1, hw1, hM⟩ := hrun
  refine ⟨w1, M1, hw1, ?_, ?_, ?_, ?_⟩
  · rw [hM, List.getElem?_set_self hlt]
  · rw [hB, hR1]; exact hlook
  · rw [hL1, hrest]
  · intro hfree
    rw [hR1, hR, if_pos ⟨hfree, hpm⟩]
    refine ⟨?_, FindRawBoneIndex_Add_new _ _ _ hfree⟩
    simp [FReferenceSkeleton.Add, FindRawBoneIndex_of_mem _ _ hpm]

/-- C1 at a concrete input: on `targetMesh` (the single bone `root`) with the
bone name `spine` and the parent `root`, the inserted bone is bone 1, named
`spine_bone`, with parent 0; the lookup of `spine` gives `INDEX_NONE`. -/
theorem AddBonesToMesh_looks_up_other_name_spine :
    (∃ w1 Mesh1, AddBonesToMesh exampleWorld (some 1) "spine" "root" exampleTM = some w1 ∧
      w1.Meshes[1]? = some Mesh1 ∧
      Mesh1.RefSkeleton.FindRawBoneIndex (FName.ofFString "spine") = INDEX_NONE ∧
      Mesh1.LODModels = targetMesh.LODModels.map (fun L => L.AddBone INDEX_NONE) ∧
      ("spine" ++ "_bone" ∉ targetMesh.RefSkeleton.boneNames →
        Mesh1.RefSkeleton.RawRefBoneInfo = targetMesh.RefSkeleton.RawRefBoneInfo ++
          [{ Name := "spine" ++ "_bone", ExportName := "spine" ++ "_bone",
             ParentIndex := targetMesh.RefSkeleton.FindRawBoneIndex (FName.ofFString "root") }] ∧
        Mesh1.RefSkeleton.FindRawBoneIndex ("spine" ++ "_bone") =
          (targetMesh.RefSkeleton.GetRawBoneNum : Int))) ∧
    meshAfter (AddBonesToMesh exampleWorld (some 1) "spine" "root" exampleTM) 1 =
      some targetMeshSpine ∧
    targetMeshSpine.RefSkeleton.FindRawBoneIndex "spine" = INDEX_NONE ∧
    targetMeshSpine.RefSkeleton.FindRawBoneIndex "spine_bone" = 1 :=
  ⟨AddBonesToMesh_looks_up_other_name exampleWorld 1 0 targetMesh targetSkeleton "spine" "root"
      exampleTM rfl rfl rfl (by decide) (by decide) (by decide),
    by decide, by decide, by decide⟩

/-- C3 at a concrete input: after `AddBonesToMesh` on `targetMesh` with the
bone name `spine` and the parent `root`, the inserted bone has index 1, and 1
is in no table of the one LOD; what the call bound in `RequiredBones`,
`ActiveBoneIndices` and the section's `BoneMap` is 65535, the stored form of
`INDEX_NONE`. -/
theorem AddBonesToMesh_binds_INDEX_NONE :
    targetMesh.RefSkeleton.FindRawBoneIndex (FName.ofFString "spine") = INDEX_NONE ∧
    targetMesh.RefSkeleton.FindRawBoneIndex (FName.ofFString "root") = 0 ∧
    targetMesh.LODModels.length = 1 ∧
    meshAfter (AddBonesToMesh exampleWorld (some 1) "spine" "root" exampleTM) 1 =
      some targetMeshSpine ∧
    targetMeshSpine.RefSkeleton.FindRawBoneIndex "spine_bone" = 1 ∧
    targetMeshSpine.LODModels =
      [{ RequiredBones := [0, 65535], ActiveBoneIndices := [0, 65535],
         Sections := [{ BoneMap := [0, 65535] }] }] ∧
    ¬ BoundInEveryLOD targetMeshSpine 1 ∧
    BoundInEveryLOD targetMeshSpine (toBoneIndexType INDEX_NONE) ∧
    toBoneIndexType INDEX_NONE = 65535 := by
  decide

/-- C2 at a concrete input: the tables of `targetMesh` are valid; the source
skeleton has the socket `weapon` on `hand`, a bone the target lacks, and the
socket `cup` on `root`.  `ConvertSocketsToBones` returns, the target then
has the two bones `root` and `cup_bone`, and every table of its LOD holds
65535, the stored form of `INDEX_NONE`, which is no index of a reference
skeleton of two bones. -/
theorem ConvertSocketsToBones_binds_INDEX_NONE :
    TablesValid targetMesh ∧
    meshAfter (ConvertSocketsToBones exampleWorld (some 0) (some 1)) 1 =
      some targetMeshConverted ∧
    targetMeshConverted.RefSkeleton.boneNames = ["root", "cup_bone"] ∧
    targetMeshConverted.LODModels =
      [{ RequiredBones := [0, 65535, 1], ActiveBoneIndices := [0, 65535, 1],
         Sections := [{ BoneMap := [0, 65535, 1] }] }] ∧
    ¬ TablesValid targetMeshConverted := by
  decide

/-- C9 fails as stated: `bodyMesh` has the bones `root`, `a`, `b` and binds
0, 1, 2 in every table.  After `RemoveBonesFromMesh` for `a` the reference
skeleton is `root`, `b`, and every table still holds 0, 1, 2: the entry 1,
which referred to `a`, is still there and now refers to `b`, and the entry
2, which referred to `b`, refers to no bone. -/
theorem RemoveBonesFromMesh_leaves_stale_indices :
    bodyMesh.RefSkeleton.FindRawBoneIndex "a" = 1 ∧
    meshAfter (RemoveBonesFromMesh bodyWorld (some 0) "a" false) 0 = some bodyMeshAfter ∧
    ¬ BindingsRepaired bodyMesh bodyMeshAfter "a" ∧
    referredBones bodyMesh.RefSkeleton [0, 1, 2] = [some "root", some "a", some "b"] ∧
    referredBones bodyMeshAfter.RefSkeleton [0, 1, 2] = [some "root", some "b", none] ∧
    bodyMeshAfter.LODModels = bodyMesh.LODModels := by
  decide

/-! ## The theorems at concrete inputs -/

/-- C4 on `targetMesh`: neither `hand` nor `weapon_bone` is a bone, and the
call for the socket `weapon` on `hand` leaves the mesh as it is. -/
theorem AddBoneToSkeleton_missing_parent_unchanged_weapon :
    targetMesh.RefSkeleton.FindRawBoneIndex "hand" = INDEX_NONE ∧
    targetMesh.RefSkeleton.FindRawBoneIndex (FName.ofFString ("weapon" ++ "_bone")) =
      INDEX_NONE ∧
    (AddBoneToSkeleton "weapon" "hand" exampleTM targetMesh).1.RefSkeleton =
      targetMesh.RefSkeleton ∧
    (AddBoneToSkeleton "weapon" "hand" exampleTM targetMesh).1 = targetMesh :=
  ⟨by decide, by decide,
    AddBoneToSkeleton_missing_parent_unchanged "weapon" "hand" exampleTM targetMesh
      (by decide) (by decide)⟩

/-- C6, as amended, on `targetMesh`: binding bone 5 in LOD 0 puts 5 once
into each table; binding bone 0, which every table holds, changes nothing. -/
theorem AddBoneToMesh_binds_once_LOD0 :
    (∃ Mesh1 L1, AddBoneToMesh targetMesh 0 5 = some Mesh1 ∧
      Mesh1.LODModels[0]? = some L1 ∧ (storedIndices L1.RequiredBones).count 5 = 1 ∧
      (storedIndices L1.ActiveBoneIndices).count 5 = 1 ∧
      AddBoneToMesh Mesh1 0 5 = some Mesh1) ∧
    AddBoneToMesh targetMesh 0 0 = some targetMesh := by
  obtain ⟨Mesh1, L1, h1, h2, h3, h4, _, _, _, h8, _⟩ :=
    AddBoneToMesh_binds_once targetMesh 0 5 rootLOD (by decide) rfl (by decide) (by decide)
  exact ⟨⟨Mesh1, L1, h1, h2, h3 (by decide), h4 (by decide), h8⟩, by decide⟩

/-- C7 on `exampleWorld`: the socket `weapon` hangs on the missing bone
`hand` and gives no bone; the socket `cup` behind it gives `cup_bone`, a
child of `root`. -/
theorem ConvertSocketsToBones_appends_cup :
    (∃ w1 Target1, ConvertSocketsToBones exampleWorld (some 0) (some 1) = some w1 ∧
      w1.Meshes[1]? = some Target1 ∧
      Target1.RefSkeleton.RawRefBoneInfo = targetMesh.RefSkeleton.RawRefBoneInfo ++
        (socketBones targetMesh.RefSkeleton.boneNames sourceSkeleton.Sockets).map Prod.fst ∧
      Target1.RefSkeleton.RawRefBonePose = targetMesh.RefSkeleton.RawRefBonePose ++
        (socketBones targetMesh.RefSkeleton.boneNames sourceSkeleton.Sockets).map Prod.snd) ∧
    socketBones targetMesh.RefSkeleton.boneNames sourceSkeleton.Sockets =
      [({ Name := "cup_bone", ExportName := "cup_bone", ParentIndex := 0 }, exampleTM)] := by
  obtain ⟨w1, Target1, h1, h2, h3, h4, _⟩ :=
    ConvertSocketsToBones_appends exampleWorld 0 1 1 0 sourceMesh targetMesh sourceSkeleton
      (by decide) rfl rfl rfl rfl rfl
  exact ⟨⟨w1, Target1, h1, h2, h3, h4⟩, by decide⟩

/-- C8 on `looseWorld`, whose mesh 0 has no skeleton and whose mesh 1 has no
bone `hand`: the three operations only report. -/
theorem validation_failure_only_reports_loose :
    (∃ w1, ConvertSocketsToBones looseWorld (some 0) (some 1) = some w1 ∧
      OnlyReported looseWorld w1) ∧
    (∃ w1, AddBonesToMesh looseWorld (some 1) "spine" "hand" exampleTM = some w1 ∧
      OnlyReported looseWorld w1) ∧
    (∃ w1, AddBonesToMesh looseWorld (some 0) "spine" "root" exampleTM = some w1 ∧
      OnlyReported looseWorld w1) ∧
    (∃ w1, RemoveBonesFromMesh looseWorld (some 0) "root" true = some w1 ∧
      OnlyReported looseWorld w1) :=
  ⟨(validation_failure_only_reports looseWorld).2.2.2.1 0 1 looseMesh targetMesh rfl rfl rfl,
   (validation_failure_only_reports looseWorld).2.2.2.2.2.2.2.1 1 targetMesh 0 targetSkeleton
     "spine" "hand" exampleTM rfl rfl rfl (by decide),
   (validation_failure_only_reports looseWorld).2.2.2.2.2.2.1 0 looseMesh "spine" "root"
     exampleTM rfl rfl,
   (validation_failure_only_reports looseWorld).2.2.2.2.2.2.2.2.2.2 0 looseMesh "root" true
     rfl rfl⟩

/-- C9, as amended, on `bodyWorld`: removing `a` from `bodyMesh` leaves the
bones `root` and `b` and the tables as they were. -/
theorem RemoveBonesFromMesh_keeps_tables_body :
    (∃ w1 M1, RemoveBonesFromMesh bodyWorld (some 0) "a" false = some w1 ∧
      w1.Meshes[0]? = some M1 ∧ M1.LODModels = bodyMesh.LODModels ∧
      M1.RefSkeleton = bodyMesh.RefSkeleton.RemoveBonesByName ["a"]) ∧
    (bodyMesh.RefSkeleton.RemoveBonesByName ["a"]).boneNames = ["root", "b"] := by
  obtain ⟨w1, h1, _, h3⟩ :=
    RemoveBonesFromMesh_keeps_tables bodyWorld 0 0 bodyMesh "a" false rfl rfl (by decide)
  obtain ⟨M1, hM, hL, hin, _⟩ := h3 0 bodyMesh rfl
  exact ⟨⟨w1, M1, h1, hM, hL, hin (by decide)⟩, by decide⟩

/-- C10 on `targetMesh`: the call for the socket `cup` on `root` appends
`cup_bone` at index 1 with parent 0 and keeps the invariants. -/
theorem AddBoneToSkeleton_preserves_invariants_cup :
    targetMesh.RefSkeleton.boneNames.Nodup ∧ ParentsBeforeChildren targetMesh.RefSkeleton ∧
    (AddBoneToSkeleton "cup" "root" exampleTM targetMesh).1.RefSkeleton.boneNames.Nodup ∧
    ParentsBeforeChildren (AddBoneToSkeleton "cup" "root" exampleTM targetMesh).1.RefSkeleton ∧
    (AddBoneToSkeleton "cup" "root" exampleTM targetMesh).1.RefSkeleton.RawRefBoneInfo =
      targetMesh.RefSkeleton.RawRefBoneInfo ++
        [{ Name := "cup_bone", ExportName := "cup_bone", ParentIndex := 0 }] := by
  obtain ⟨h1, h2, _, _⟩ :=
    AddBoneToSkeleton_preserves_invariants "cup" "root" exampleTM targetMesh
      (by decide) (by decide)
  exact ⟨by decide, by decide, h1, h2, by decide⟩

end VBTBoneTools
